import Mathlib

/-!
# Verification of the native-clabernetes workload pipeline

A shallow embedding of the workload classification / rendering /
reconciliation pipeline of the `native-clabernetes` repository:

* `pkg/workload/detector` — the `WorkloadClassifier`
  (`DetermineWorkloadType`, `classifyByImage`, `classifyByKind`,
  `classifyByImageCharacteristics`, `ForceVM`, `ForceContainer`);
* `pkg/workload/renderer` — the `WorkloadRenderer`
  (`RenderTopologyWorkloads`, `buildNodeConfig`, `buildDeployment`,
  `buildVirtualMachine`, `buildService`, `buildConfigMap`);
* `pkg/workload/reconciler` — the `WorkloadReconciler`
  (`ReconcileTopologyWorkloads`, `reconcileResource`,
  `needsDeploymentUpdate`, `needsServiceUpdate`,
  `getExistingResources`, `deleteUnwantedResources`);
* `pkg/executor/vm` — the `VMExecutor`'s `renderVirtualMachine` and
  `generateCloudInitUserData`;
* `pkg/executor/common` — the shared data model (`NodeConfig`,
  `WorkloadType`, …).

Go maps are embedded as association lists; where the Go code *iterates*
a map (an operation with unspecified order in Go), the association
list's order plays the role of the iteration order, which makes the
order an explicit parameter of the embedding.  Go's `reflect.DeepEqual`
on slices is element-wise and ordered, matching list equality; on maps
it is order-insensitive, which coincides with list equality whenever
both maps were produced by the same deterministic construction — the
only situation in which the theorems below compare two maps.
The Kubernetes API server is embedded as a pure state (`Cluster`), and
API failures are injected through an explicit fault set of resource
keys whose mutating calls fail.
-/

namespace NativeClab

/-! ## String helpers (Go `strings` package) -/

/-- Go `strings.ToLower`.  All strings handled by the classifier are
ASCII, for which `Char.toLower` agrees with the Go function. -/
def strToLower (s : String) : String :=
  String.mk (s.data.map Char.toLower)

/-- Substring search on character lists: does the second list occur as a
contiguous run inside the first? -/
def containsSub (pat : List Char) : List Char → Bool
  | [] => pat.isEmpty
  | c :: rest => pat.isPrefixOf (c :: rest) || containsSub pat rest

/-- Go `strings.Contains s sub`. -/
def strContains (s sub : String) : Bool :=
  containsSub sub.toList s.toList

/-- Go `strings.HasPrefix s p`. -/
def strStartsWith (s p : String) : Bool :=
  p.toList.isPrefixOf s.toList

/-! ## Association-list maps (Go `map[string]string` et al.) -/

/-- `m[k]` map lookup (first binding wins; well-formed maps bind each
key once). -/
def lookupS (m : List (String × String)) (key : String) : Option String :=
  match m with
  | [] => none
  | (k, v) :: rest => if k = key then some v else lookupS rest key

/-- `m[k] = v` map insertion: replace the binding in place if the key is
present, otherwise append a fresh binding. -/
def insertS (m : List (String × String)) (key v : String) : List (String × String) :=
  if m.any (fun p => p.1 = key) then
    m.map (fun p => if p.1 = key then (key, v) else p)
  else
    m ++ [(key, v)]

/-! ## `pkg/executor/common`: the shared data model -/

/-- `common.WorkloadType` — closed two-value enumeration
(`WorkloadTypeContainer`, `WorkloadTypeVM`). -/
inductive WorkloadType where
  | container
  | vm
deriving DecidableEq, Repr

/-- The string value of a `common.WorkloadType` (it is a string type in
the source). -/
def WorkloadType.str : WorkloadType → String
  | .container => "container"
  | .vm => "vm"

/-- `common.NetworkEndpoint`. -/
structure NetworkEndpoint where
  node : String
  interfaceName : String
  address : String
deriving DecidableEq, Repr

/-- `common.NetworkInterface`. -/
structure NetworkInterface where
  name : String
  ifaceType : String
  endpoint : Option NetworkEndpoint := none
deriving DecidableEq, Repr

/-- `k8scorev1.ResourceRequirements`, with quantities kept as their
string renderings; a present, non-`"0"` quantity is non-zero. -/
structure ResourceRequirements where
  requests : List (String × String) := []
  limits : List (String × String) := []
deriving DecidableEq, Repr

/-- `common.NodeConfig`. The `Labels`/`Annotations`/`Environment`/`Files`
maps are embedded as association lists whose order stands for the Go
map's (unspecified) iteration order. -/
structure NodeConfig where
  name : String
  image : String
  kind : String
  labels : List (String × String) := []
  annotations : List (String × String) := []
  environment : List (String × String) := []
  interfaces : List NetworkInterface := []
  resources : Option ResourceRequirements := none
  startupConfig : String := ""
  files : List (String × String) := []
deriving DecidableEq, Repr

/-! ## Constants (`constants/labels.go`) -/

def LabelTopology : String := "clabernetes/topology"
def LabelTopologyNode : String := "clabernetes/topologyNode"
def LabelExecutionMode : String := "clabernetes/executionMode"
def LabelWorkloadType : String := "clabernetes/workloadType"
def LabelNetworkingMode : String := "clabernetes/networkingMode"
def LabelNodeKind : String := "clabernetes/nodeKind"
def WorkloadTypeContainerStr : String := "container"
def WorkloadTypeVMStr : String := "vm"

/-- Modelled from the spec: the environment-variable name constants live
in `constants/env.go`, which is not among the provided sources.  The
detector reads the literal key `"EXECUTION_MODE"`
(`config.Environment["EXECUTION_MODE"]`), and the spec's classifier
contract makes the renderer's topology-level execution mode visible to
that check, fixing the constant's value. -/
def ExecutionModeEnv : String := "EXECUTION_MODE"

/-- Modelled from the spec: companion constant from the missing
`constants/env.go` (value immaterial to every claim below). -/
def NetworkingModeEnv : String := "NETWORKING_MODE"

/-- `common.ExecutionMode` string constants (`pkg/executor/common`). -/
def ExecutionModeContainer : String := "container"
def ExecutionModeVM : String := "vm"
def ExecutionModeAuto : String := "auto"
def ExecutionModeLegacy : String := "legacy"
def ExecutionModeHybrid : String := "hybrid"

/-! ## `pkg/workload/detector`: the `WorkloadClassifier` -/

/-- `detector.WorkloadClassifier` (the logger field carries no
behaviour and is dropped).  `forceVM`/`forceContainer` are
`map[string]bool` registries holding only `true` entries, embedded as
name lists; `vmImageMap` keeps the source's textual order. -/
structure WorkloadClassifier where
  vmImageMap : List (String × Bool)
  forceVM : List String
  forceContainer : List String
deriving DecidableEq, Repr

/-- `detector.NewWorkloadClassifier`: the curated image-pattern table,
in source order. -/
def NewWorkloadClassifier : WorkloadClassifier :=
  { vmImageMap :=
      [ ("cisco/csr1000v", true)
      , ("cisco/iosv", true)
      , ("cisco/iosxr", true)
      , ("cisco/nxos", true)
      , ("arista/veos", true)
      , ("arista/ceos", false)
      , ("juniper/vmx", true)
      , ("juniper/vsrx", true)
      , ("juniper/vqfx", true)
      , ("vyos/vyos", true)
      , ("pfsense/pfsense", true)
      , ("opnsense/opnsense", true)
      , ("mikrotik/routeros", true)
      , ("mikrotik/chr", true)
      , ("fortinet/fortigate", true)
      , ("nokia/srl", false)
      , ("nokia/srlinux", false)
      , ("sonic/sonic", false)
      , ("azure/sonic", false)
      , ("frr/frr", false)
      , ("quagga/quagga", false)
      , ("alpine", false)
      , ("ubuntu", false)
      , ("centos", false)
      , ("debian", false)
      ]
  , forceVM := []
  , forceContainer := [] }

/-- `classifyByImage`: curated-table substring match first, then VM
indicators, then container indicators; `none` models the Go empty-string
"no verdict".  The Go table walk ranges over a map whose iteration order
is unspecified; the embedding fixes the source's textual order. -/
def classifyByImage (c : WorkloadClassifier) (image : String) : Option WorkloadType :=
  let imageLower := strToLower image
  match c.vmImageMap.findSome? (fun p =>
      if strContains imageLower (strToLower p.1) then
        some (if p.2 then WorkloadType.vm else WorkloadType.container)
      else none) with
  | some t => some t
  | none =>
    let vmIndicators :=
      [ "vmx", "vsrx", "vqfx", "veos", "csr1000v", "iosv", "iosxr"
      , "vyos", "pfsense", "opnsense", "routeros", "chr", "fortigate"
      , "vm-", "-vm", "virtual", "qemu", "kvm" ]
    if vmIndicators.any (fun ind => strContains imageLower ind) then
      some WorkloadType.vm
    else
      let containerIndicators :=
        [ "ceos", "srl", "srlinux", "sonic", "frr", "quagga"
        , "alpine", "ubuntu", "centos", "debian", "busybox"
        , "container", "docker", "k8s" ]
      if containerIndicators.any (fun ind => strContains imageLower ind) then
        some WorkloadType.container
      else none

/-- `classifyByKind`: exact lookups of the lower-cased kind in the two
kind sets. -/
def classifyByKind (kind : String) : Option WorkloadType :=
  let kindLower := strToLower kind
  let vmKinds :=
    [ "csr1000v", "iosv", "iosxr", "nxos", "veos", "vmx", "vsrx", "vqfx"
    , "vyos", "pfsense", "opnsense", "routeros", "chr", "fortigate", "fortios" ]
  let containerKinds :=
    [ "ceos", "srl", "srlinux", "sonic", "frr", "quagga"
    , "linux", "host", "bridge", "ovs" ]
  if vmKinds.contains kindLower then some WorkloadType.vm
  else if containerKinds.contains kindLower then some WorkloadType.container
  else none

/-- `classifyByImageCharacteristics`: disk-image file-extension
substrings force VM; known VM registries force VM; known container
registries force container. -/
def classifyByImageCharacteristics (image : String) : Option WorkloadType :=
  let imageLower := strToLower image
  if strContains imageLower "qcow2" || strContains imageLower "vmdk" ||
      strContains imageLower "iso" || strContains imageLower "ova" ||
      strContains imageLower "vhd" then
    some WorkloadType.vm
  else
    let vmRegistries :=
      [ "registry.hub.docker.com/virtualization/"
      , "quay.io/kubevirt/"
      , "registry.redhat.io/ubi8/" ]
    if vmRegistries.any (fun r => strStartsWith imageLower r) then
      some WorkloadType.vm
    else
      let containerRegistries :=
        [ "docker.io/", "ghcr.io/", "quay.io/", "gcr.io/", "registry.k8s.io/" ]
      if containerRegistries.any (fun r => strStartsWith imageLower r) then
        some WorkloadType.container
      else none

/-- The classification chain after the `EXECUTION_MODE` switch: forced
registries, then image, kind and image-characteristic analysis, then the
container default.  (In the Go source this is the straight-line body of
`DetermineWorkloadType` that an unmatched switch falls through to.) -/
def classifyAfterEnv (c : WorkloadClassifier) (config : NodeConfig) : WorkloadType :=
  if c.forceVM.contains config.name then WorkloadType.vm
  else if c.forceContainer.contains config.name then WorkloadType.container
  else
    match classifyByImage c config.image with
    | some t => t
    | none =>
      match classifyByKind config.kind with
      | some t => t
      | none =>
        match classifyByImageCharacteristics config.image with
        | some t => t
        | none => WorkloadType.container

/-- `detector.DetermineWorkloadType`. -/
def DetermineWorkloadType (c : WorkloadClassifier) (config : NodeConfig) : WorkloadType :=
  match lookupS config.environment "EXECUTION_MODE" with
  | some execMode =>
    if strToLower execMode = "vm" ∨ strToLower execMode = "virtual-machine" then
      WorkloadType.vm
    else if strToLower execMode = "container" ∨ strToLower execMode = "pod" then
      WorkloadType.container
    else
      classifyAfterEnv c config
  | none => classifyAfterEnv c config

/-- `detector.ForceVM`: set the VM registry entry and delete any
conflicting container entry. -/
def ForceVM (c : WorkloadClassifier) (nodeName : String) : WorkloadClassifier :=
  { c with
    forceVM := if c.forceVM.contains nodeName then c.forceVM else c.forceVM ++ [nodeName]
    forceContainer := c.forceContainer.filter (fun m => m ≠ nodeName) }

/-- `detector.ForceContainer`: set the container registry entry and
delete any conflicting VM entry. -/
def ForceContainer (c : WorkloadClassifier) (nodeName : String) : WorkloadClassifier :=
  { c with
    forceContainer :=
      if c.forceContainer.contains nodeName then c.forceContainer
      else c.forceContainer ++ [nodeName]
    forceVM := c.forceVM.filter (fun m => m ≠ nodeName) }

/-! ## Topology API types (`apis/v1alpha1`, `util/containerlab`) -/

/-- Per-node execution override (`NativeExecution.NodeOverrides` entry). -/
structure NodeOverride where
  executionMode : String := ""
  resources : Option ResourceRequirements := none
  config : List (String × String) := []
deriving DecidableEq, Repr

/-- The networking part of `TopologySpec.NativeExecution`. -/
structure NativeNetworking where
  cni : String := ""
deriving DecidableEq, Repr

/-- `TopologySpec.NativeExecution`. -/
structure NativeExecution where
  executionMode : String := ""
  networking : NativeNetworking := {}
  nodeOverrides : List (String × NodeOverride) := []
deriving DecidableEq, Repr

/-- The part of `TopologySpec` consumed by the workload pipeline. -/
structure TopologySpec where
  nativeExecution : NativeExecution := {}
deriving DecidableEq, Repr

/-- A `Topology` custom resource (name plus the consumed spec). -/
structure Topology where
  name : String
  spec : TopologySpec := {}
deriving DecidableEq, Repr

/-- `clabernetesutilcontainerlab.NodeDefinition` — the fields the
renderer reads. -/
structure NodeDefinition where
  image : String := ""
  kind : String := ""
  env : List (String × String) := []
  labels : List (String × String) := []
  startupConfig : String := ""
deriving DecidableEq, Repr

/-! ## Kubernetes object model (shallow) -/

/-- `k8scorev1.EnvVar`. -/
structure EnvVar where
  name : String
  value : String
deriving DecidableEq, Repr

/-- `k8scorev1.ContainerPort`. -/
structure ContainerPort where
  name : String
  containerPort : Nat
  protocol : String
deriving DecidableEq, Repr

/-- `k8scorev1.Container` — the fields the pipeline sets and compares.
`capabilitiesAdd` embeds `SecurityContext.Capabilities.Add`. -/
structure Container where
  name : String
  image : String
  env : List EnvVar
  ports : List ContainerPort
  capabilitiesAdd : List String
  imagePullPolicy : String
  resources : Option ResourceRequirements := none
deriving DecidableEq, Repr

/-- `k8scorev1.PodTemplateSpec` (metadata labels/annotations plus the
pod spec fields the pipeline sets). -/
structure PodTemplateSpec where
  labels : List (String × String)
  annotations : List (String × String)
  containers : List Container
  restartPolicy : String
deriving DecidableEq, Repr

/-- `k8sappsv1.DeploymentSpec`.  `strategyType` is
`Spec.Strategy.Type`; its Go zero value is the empty string, and a
builder that does not assign it leaves that zero value in place (the
API server then applies its own RollingUpdate default on admission). -/
structure DeploymentSpec where
  replicas : Nat
  strategyType : String := ""
  selectorMatchLabels : List (String × String)
  template : PodTemplateSpec
deriving DecidableEq, Repr

/-- `k8sappsv1.Deployment`. -/
structure Deployment where
  name : String
  nspace : String
  labels : List (String × String)
  annotations : List (String × String)
  resourceVersion : String := ""
  spec : DeploymentSpec
deriving DecidableEq, Repr

/-- `k8scorev1.ServicePort`. -/
structure ServicePort where
  name : String
  port : Nat
  protocol : String
deriving DecidableEq, Repr

/-- `k8scorev1.ServiceSpec`. -/
structure ServiceSpec where
  selector : List (String × String)
  ports : List ServicePort
  serviceType : String
  clusterIP : String := ""
deriving DecidableEq, Repr

/-- `k8scorev1.Service`. -/
structure Service where
  name : String
  nspace : String
  labels : List (String × String)
  resourceVersion : String := ""
  spec : ServiceSpec
deriving DecidableEq, Repr

/-- `k8scorev1.ConfigMap`. -/
structure ConfigMap where
  name : String
  nspace : String
  labels : List (String × String)
  resourceVersion : String := ""
  data : List (String × String)
deriving DecidableEq, Repr

/-- One entry of the VM template's `devices.disks` list. -/
structure VMDisk where
  name : String
  bus : String
deriving DecidableEq, Repr

/-- One entry of the VM template's `devices.interfaces` list.  In the
unstructured Go tree the binding mode is the map key (`"masquerade"` or
`"bridge"` mapped to an empty object). -/
structure VMInterface where
  name : String
  mode : String
deriving DecidableEq, Repr

/-- One entry of the VM template's `networks` list (`"pod"` attachment,
or a `"multus"` attachment carrying a network name). -/
structure VMNetwork where
  name : String
  attachment : String
  networkName : String := ""
deriving DecidableEq, Repr

/-- A volume source in the VM template (`containerDisk` or
`cloudInitNoCloud`). -/
inductive VMVolumeSource where
  | containerDisk (image : String)
  | cloudInitNoCloud (userData : String)
deriving DecidableEq, Repr

/-- One entry of the VM template's `volumes` list. -/
structure VMVolume where
  name : String
  source : VMVolumeSource
deriving DecidableEq, Repr

/-- The `spec` subtree of the unstructured VirtualMachine object — the
subtree `reconcileVirtualMachine` extracts with `NestedMap` and
compares. -/
structure VMSpec where
  running : Bool
  templateLabels : List (String × String)
  disks : List VMDisk
  interfaces : List VMInterface
  memoryRequest : String
  cpuRequest : String
  networks : List VMNetwork
  volumes : List VMVolume
deriving DecidableEq, Repr

/-- The unstructured VirtualMachine object.  `kind` is what
`GetKind()` returns; the builders set it to `"VirtualMachine"`. -/
structure VirtualMachine where
  kind : String
  name : String
  nspace : String
  labels : List (String × String)
  annotations : List (String × String) := []
  resourceVersion : String := ""
  spec : VMSpec
deriving DecidableEq, Repr

/-- The dynamic type of `renderer.Resource.Object`
(`interface\x7b\x7d` in Go): one of the four object types the pipeline
actually stores there. -/
inductive K8sObject where
  | deployment (d : Deployment)
  | service (s : Service)
  | configMap (m : ConfigMap)
  | unstructured (u : VirtualMachine)
deriving DecidableEq, Repr

/-! ## `pkg/workload/renderer` -/

/-- `renderer.Resource`: a kind tag, the (dynamically typed) object and
an informational dependency list. -/
structure Resource where
  rtype : String
  object : K8sObject
  dependencies : List String := []
deriving DecidableEq, Repr

/-- `renderer.RenderResult`. -/
structure RenderResult where
  workloadType : WorkloadType
  resources : List Resource
  nodeConfig : NodeConfig
deriving DecidableEq, Repr

/-- `buildNodeConfig`: convert a containerlab node definition plus the
topology-level execution configuration into a `common.NodeConfig`. -/
def buildNodeConfig (nodeName : String) (config : NodeDefinition) (topology : Topology) :
    NodeConfig :=
  let labels0 : List (String × String) := []
  let labels1 := insertS labels0 LabelTopology topology.name
  let labels2 := insertS labels1 LabelTopologyNode nodeName
  let labels3 := insertS labels2 LabelNodeKind config.kind
  let env0 : List (String × String) := []
  let ne := topology.spec.nativeExecution
  let (env1, labels4) :=
    if ne.executionMode ≠ "" then
      (insertS env0 ExecutionModeEnv ne.executionMode,
        insertS labels3 LabelExecutionMode ne.executionMode)
    else (env0, labels3)
  let (env2, labels5) :=
    if ne.networking.cni ≠ "" then
      (insertS env1 NetworkingModeEnv ne.networking.cni,
        insertS labels4 LabelNetworkingMode ne.networking.cni)
    else (env1, labels4)
  let (env3, labels6, resources1) :=
    match ne.nodeOverrides.find? (fun p => p.1 = nodeName) with
    | some (_, override) =>
      let (envA, labelsA) :=
        if override.executionMode ≠ "" then
          (insertS env2 ExecutionModeEnv override.executionMode,
            insertS labels5 LabelExecutionMode override.executionMode)
        else (env2, labels5)
      (override.config.foldl (fun (m : List (String × String)) (p : String × String) => insertS m p.1 p.2) envA, labelsA,
        override.resources)
    | none => (env2, labels5, none)
  let env4 := config.env.foldl (fun (m : List (String × String)) (p : String × String) => insertS m p.1 p.2) env3
  let labels7 := config.labels.foldl (fun (m : List (String × String)) (p : String × String) => insertS m p.1 p.2) labels6
  { name := nodeName
  , image := config.image
  , kind := config.kind
  , labels := labels7
  , annotations := []
  , environment := env4
  , interfaces := [{ name := "eth0", ifaceType := "ethernet" }]
  , resources := resources1
  , startupConfig := config.startupConfig
  , files := [] }

/-- `buildDeployment`: the container-path Deployment.  Note that the
environment-variable list is built by ranging over the
`config.Environment` map, so its order is the map's iteration order,
and that `Spec.Strategy` is never assigned (it keeps its zero value). -/
def buildDeployment (config : NodeConfig) (_topology : Topology) (ns : String) :
    Deployment :=
  let labels := insertS config.labels LabelWorkloadType WorkloadTypeContainerStr
  let annotations := config.annotations
  let env := config.environment.map (fun p => EnvVar.mk p.1 p.2)
  let ports : List ContainerPort :=
    [ { name := "ssh", containerPort := 22, protocol := "TCP" }
    , { name := "netconf", containerPort := 830, protocol := "TCP" }
    , { name := "gnmi", containerPort := 57400, protocol := "TCP" } ]
  let container : Container :=
    { name := config.name
    , image := config.image
    , env := env
    , ports := ports
    , capabilitiesAdd := ["NET_ADMIN"]
    , imagePullPolicy := "IfNotPresent"
    , resources := config.resources }
  { name := config.name
  , nspace := ns
  , labels := labels
  , annotations := annotations
  , spec :=
    { replicas := 1
    , selectorMatchLabels := [(LabelTopologyNode, config.name)]
    , template :=
      { labels := labels
      , annotations := annotations
      , containers := [container]
      , restartPolicy := "Always" } } }

/-- `buildVirtualMachine`: the renderer's "basic VM specification"
(unstructured tree). -/
def buildVirtualMachine (config : NodeConfig) (_topology : Topology) (ns : String) :
    VirtualMachine :=
  let labels1 := insertS config.labels LabelWorkloadType WorkloadTypeVMStr
  let labels := insertS labels1 "kubevirt.io/vm" config.name
  { kind := "VirtualMachine"
  , name := config.name
  , nspace := ns
  , labels := labels
  , spec :=
    { running := true
    , templateLabels := labels
    , disks := [{ name := "containerdisk", bus := "virtio" }]
    , interfaces := [{ name := "default", mode := "masquerade" }]
    , memoryRequest := "1Gi"
    , cpuRequest := "1"
    , networks := [{ name := "default", attachment := "pod" }]
    , volumes := [{ name := "containerdisk", source := .containerDisk config.image }] } }

/-- `buildService`: the ClusterIP Service for a node. -/
def buildService (config : NodeConfig) (topology : Topology) (ns : String) : Service :=
  { name := config.name
  , nspace := ns
  , labels := [(LabelTopology, topology.name), (LabelTopologyNode, config.name)]
  , spec :=
    { selector := [(LabelTopologyNode, config.name)]
    , ports :=
      [ { name := "ssh", port := 22, protocol := "TCP" }
      , { name := "netconf", port := 830, protocol := "TCP" }
      , { name := "gnmi", port := 57400, protocol := "TCP" } ]
    , serviceType := "ClusterIP" } }

/-- `buildConfigMap`: the per-node configuration bundle. -/
def buildConfigMap (config : NodeConfig) (topology : Topology) (ns : String) :
    ConfigMap :=
  let data0 := config.files.foldl (fun (m : List (String × String)) (p : String × String) => insertS m p.1 p.2) []
  let data :=
    if config.startupConfig ≠ "" then insertS data0 "startup-config" config.startupConfig
    else data0
  { name := config.name ++ "-config"
  , nspace := ns
  , labels := [(LabelTopology, topology.name), (LabelTopologyNode, config.name)]
  , data := data }

/-- `renderContainerResources`. -/
def renderContainerResources (config : NodeConfig) (topology : Topology)
    (ns : String) : List Resource :=
  let deployment := buildDeployment config topology ns
  let service := buildService config topology ns
  [ { rtype := "Deployment", object := .deployment deployment }
  , { rtype := "Service", object := .service service, dependencies := [deployment.name] } ]

/-- `renderVMResources`. -/
def renderVMResources (config : NodeConfig) (topology : Topology)
    (ns : String) : List Resource :=
  let vm := buildVirtualMachine config topology ns
  let service := buildService config topology ns
  [ { rtype := "VirtualMachine", object := .unstructured vm }
  , { rtype := "Service", object := .service service
    , dependencies := [config.name ++ "-vm"] } ]

/-- `renderCommonResources`: the optional ConfigMap. -/
def renderCommonResources (config : NodeConfig) (topology : Topology)
    (ns : String) : List Resource :=
  if config.files.length > 0 ∨ config.startupConfig ≠ "" then
    [{ rtype := "ConfigMap", object := .configMap (buildConfigMap config topology ns) }]
  else []

/-- `renderNodeResources`.  The Go function's `default:` arm
("unsupported workload type") is unreachable here because
`WorkloadType` is the closed two-variant enumeration. -/
def renderNodeResources (config : NodeConfig) (workloadType : WorkloadType)
    (topology : Topology) (ns : String) : List Resource :=
  (match workloadType with
   | .container => renderContainerResources config topology ns
   | .vm => renderVMResources config topology ns)
  ++ renderCommonResources config topology ns

/-- `RenderTopologyWorkloads`: per node, build the `NodeConfig`,
classify it, and render its resources.  The `configs` map's iteration
order is the list's order; the Go error path is unreachable because the
sub-builders never fail (see `renderNodeResources`). -/
def RenderTopologyWorkloads (classifier : WorkloadClassifier) (topology : Topology)
    (configs : List (String × NodeDefinition)) (ns : String) :
    List (String × RenderResult) :=
  configs.map (fun p =>
    let nodeConfig := buildNodeConfig p.1 p.2 topology
    let workloadType := DetermineWorkloadType classifier nodeConfig
    (p.1,
      { workloadType := workloadType
      , resources := renderNodeResources nodeConfig workloadType topology ns
      , nodeConfig := nodeConfig }))

/-! ## `pkg/executor/vm`: the `VMExecutor` renderer -/

/-- `generateCloudInitUserData`: the cloud-init user-data script, with
the hostname and (optionally) the startup configuration injected. -/
def generateCloudInitUserData (config : NodeConfig) : String :=
  let userData :=
    "#cloud-config\nhostname: " ++ config.name ++
    "\nusers:\n  - name: admin\n    sudo: ALL=(ALL) NOPASSWD:ALL\n    shell: /bin/bash\n    ssh_authorized_keys:\n      - ssh-rsa AAAAB3NzaC1yc2EAAAADAQABAAABgQC... # Add your SSH key here\nruncmd:\n  - echo \"Node " ++
    config.name ++ " started\" > /var/log/clabernetes-init.log\n"
  if config.startupConfig ≠ "" then
    userData ++ "  - echo \"" ++ config.startupConfig ++ "\" > /tmp/startup-config.txt\n"
  else userData

/-- The VM executor's per-kind resource profile and its override by
explicit resource requests (a present quantity is non-zero unless it is
the literal zero quantity `"0"`). -/
def vmResourceRequests (config : NodeConfig) : String × String :=
  let base :=
    match config.kind with
    | "vyos" => ("2Gi", "2")
    | "opnsense" => ("2Gi", "2")
    | "pfsense" => ("2Gi", "2")
    | "csr1000v" => ("4Gi", "2")
    | "vmx" => ("4Gi", "2")
    | _ => ("1Gi", "1")
  match config.resources with
  | none => base
  | some r =>
    let memory :=
      match lookupS r.requests "memory" with
      | some m => if m ≠ "0" then m else base.1
      | none => base.1
    let cpu :=
      match lookupS r.requests "cpu" with
      | some q => if q ≠ "0" then q else base.2
      | none => base.2
    (memory, cpu)

/-- `vm.renderVirtualMachine`: the VM executor's full VirtualMachine
manifest (container disk, cloud-init disk, default interface plus one
bridge interface and multus network per declared node interface,
per-kind resource profile with explicit-request override). -/
def renderVirtualMachine (ns : String) (config : NodeConfig) : VirtualMachine :=
  let labels0 : List (String × String) :=
    [ ("app", config.name)
    , (LabelTopologyNode, config.name)
    , ("clabernetes/execution-mode", "native")
    , ("clabernetes/workload-type", "vm")
    , ("kubevirt.io/vm", config.name) ]
  let labels := config.labels.foldl (fun (m : List (String × String)) (p : String × String) => insertS m p.1 p.2) labels0
  let annotations0 : List (String × String) :=
    [ ("clabernetes/node-kind", config.kind)
    , ("clabernetes/image", config.image) ]
  let annotations := config.annotations.foldl (fun (m : List (String × String)) (p : String × String) => insertS m p.1 p.2) annotations0
  let linkInterfaces :=
    (List.range config.interfaces.length).map (fun i =>
      VMInterface.mk ("net" ++ toString (i + 1)) "bridge")
  let interfaces := VMInterface.mk "default" "masquerade" :: linkInterfaces
  let linkNetworks :=
    (List.range config.interfaces.length).map (fun i =>
      VMNetwork.mk ("net" ++ toString (i + 1)) "multus"
        (config.name ++ "-net" ++ toString (i + 1)))
  let networks := VMNetwork.mk "default" "pod" "" :: linkNetworks
  let rq := vmResourceRequests config
  { kind := "VirtualMachine"
  , name := config.name
  , nspace := ns
  , labels := labels
  , annotations := annotations
  , spec :=
    { running := true
    , templateLabels := labels
    , disks :=
      [ { name := "containerdisk", bus := "virtio" }
      , { name := "cloudinitdisk", bus := "virtio" } ]
    , interfaces := interfaces
    , memoryRequest := rq.1
    , cpuRequest := rq.2
    , networks := networks
    , volumes :=
      [ { name := "containerdisk", source := .containerDisk config.image }
      , { name := "cloudinitdisk", source := .cloudInitNoCloud (generateCloudInitUserData config) } ] } }

/-! ## `pkg/workload/reconciler` -/

/-- `reconciler.ResourceInfo`.  `workloadType` is a string type in the
source; deletion records leave it (and the namespace) at the zero
value. -/
structure ResourceInfo where
  rtype : String
  name : String
  nspace : String
  workloadType : String
deriving DecidableEq, Repr

/-- A resource identity key: the `"<Kind>/<Name>"` string of the source,
kept as a structured pair (Kubernetes names cannot contain `/`, so the
two presentations are interchangeable). -/
abbrev RKey := String × String

/-- Render a key the way the source does (`fmt.Sprintf("%s/%s", …)`). -/
def keyStr (k : RKey) : String := k.1 ++ "/" ++ k.2

/-- The identity key of a stored object (its kind and name; for the
unstructured case the kind is `GetKind()`). -/
def keyFor : K8sObject → RKey
  | .deployment d => ("Deployment", d.name)
  | .service s => ("Service", s.name)
  | .configMap m => ("ConfigMap", m.name)
  | .unstructured u => (u.kind, u.name)

/-- `getResourceKey`: the reconciler's per-resource identity key,
switching on the object's dynamic type. -/
def getResourceKey (resource : Resource) : RKey :=
  keyFor resource.object

/-- The cluster state visible through the Kubernetes API, namespace
scoped: the bag of stored objects. -/
abbrev Cluster := List K8sObject

/-- A typed `Get` by kind and name: the first stored object carrying
the key (absence is the API's NotFound). -/
def Cluster.getObj (cl : Cluster) (k : RKey) : Option K8sObject :=
  (cl.filter (fun o => keyFor o == k)).head?

/-- A `Create`: the API server stores the submitted object. -/
def Cluster.createObj (cl : Cluster) (o : K8sObject) : Cluster :=
  cl ++ [o]

/-- An `Update` at key `k`: the stored object is replaced by the
submitted one. -/
def Cluster.putObj (cl : Cluster) (k : RKey) (o : K8sObject) : Cluster :=
  cl.map (fun x => if keyFor x == k then o else x)

/-- A `Delete` at key `k` (NotFound is tolerated, so deleting an absent
key is a no-op). -/
def Cluster.delObj (cl : Cluster) (k : RKey) : Cluster :=
  cl.filter (fun x => !(keyFor x == k))

/-- Injected API faults: the set of resource keys whose mutating calls
(create/update/delete) fail.  An empty list is a fault-free API. -/
abbrev Faults := List RKey

/-- `needsDeploymentUpdate`: semantic comparison of the container list,
labels and annotations (`reflect.DeepEqual` on each). -/
def needsDeploymentUpdate (existing desired : Deployment) : Bool :=
  decide (existing.spec.template.containers ≠ desired.spec.template.containers)
  || decide (existing.labels ≠ desired.labels)
  || decide (existing.annotations ≠ desired.annotations)

/-- `needsServiceUpdate`: semantic comparison of ports, selector and
type. -/
def needsServiceUpdate (existing desired : Service) : Bool :=
  decide (existing.spec.ports ≠ desired.spec.ports)
  || decide (existing.spec.selector ≠ desired.spec.selector)
  || decide (existing.spec.serviceType ≠ desired.spec.serviceType)

/-- The outcome of reconciling one resource: the evolved cluster plus
the `Created`/`Updated` records to append (`Except.error` is the Go
non-nil error return, in which case the cluster is untouched). -/
abbrev ReconOut := Cluster × List ResourceInfo × List ResourceInfo

/-- `reconcileDeployment`. -/
def reconcileDeployment (F : Faults) (cl : Cluster) (d : Deployment)
    (wt : WorkloadType) : Except String ReconOut :=
  match cl.getObj ("Deployment", d.name) with
  | none =>
    if F.contains (("Deployment", d.name) : RKey) then
      .error ("failed to create deployment " ++ d.name)
    else
      .ok (cl.createObj (.deployment d),
        [⟨"Deployment", d.name, d.nspace, wt.str⟩], [])
  | some (.deployment existing) =>
    if needsDeploymentUpdate existing d then
      if F.contains (("Deployment", d.name) : RKey) then
        .error ("failed to update deployment " ++ d.name)
      else
        .ok (cl.putObj ("Deployment", d.name)
            (.deployment { d with resourceVersion := existing.resourceVersion }),
          [], [⟨"Deployment", d.name, d.nspace, wt.str⟩])
    else .ok (cl, [], [])
  | some _ => .error ("failed to get deployment " ++ d.name)

/-- `reconcileService` (an update preserves the server-assigned
`resourceVersion` and `Spec.ClusterIP`). -/
def reconcileService (F : Faults) (cl : Cluster) (s : Service)
    (wt : WorkloadType) : Except String ReconOut :=
  match cl.getObj ("Service", s.name) with
  | none =>
    if F.contains (("Service", s.name) : RKey) then
      .error ("failed to create service " ++ s.name)
    else
      .ok (cl.createObj (.service s), [⟨"Service", s.name, s.nspace, wt.str⟩], [])
  | some (.service existing) =>
    if needsServiceUpdate existing s then
      if F.contains (("Service", s.name) : RKey) then
        .error ("failed to update service " ++ s.name)
      else
        .ok (cl.putObj ("Service", s.name)
            (.service
              { s with
                resourceVersion := existing.resourceVersion,
                spec := { s.spec with clusterIP := existing.spec.clusterIP } }),
          [], [⟨"Service", s.name, s.nspace, wt.str⟩])
    else .ok (cl, [], [])
  | some _ => .error ("failed to get service " ++ s.name)

/-- `reconcileConfigMap` (`reflect.DeepEqual` on the data map). -/
def reconcileConfigMap (F : Faults) (cl : Cluster) (m : ConfigMap)
    (wt : WorkloadType) : Except String ReconOut :=
  match cl.getObj ("ConfigMap", m.name) with
  | none =>
    if F.contains (("ConfigMap", m.name) : RKey) then
      .error ("failed to create configmap " ++ m.name)
    else
      .ok (cl.createObj (.configMap m), [⟨"ConfigMap", m.name, m.nspace, wt.str⟩], [])
  | some (.configMap existing) =>
    if decide (existing.data ≠ m.data) then
      if F.contains (("ConfigMap", m.name) : RKey) then
        .error ("failed to update configmap " ++ m.name)
      else
        .ok (cl.putObj ("ConfigMap", m.name)
            (.configMap { m with resourceVersion := existing.resourceVersion }),
          [], [⟨"ConfigMap", m.name, m.nspace, wt.str⟩])
    else .ok (cl, [], [])
  | some _ => .error ("failed to get configmap " ++ m.name)

/-- `reconcileVirtualMachine`: the dynamic client addresses the fixed
`virtualmachines` resource, so the API key kind is the constant
`"VirtualMachine"`; the spec subtrees are compared and an update
preserves the resource version. -/
def reconcileVirtualMachine (F : Faults) (cl : Cluster) (vm : VirtualMachine)
    (wt : WorkloadType) : Except String ReconOut :=
  match cl.getObj ("VirtualMachine", vm.name) with
  | none =>
    if F.contains (("VirtualMachine", vm.name) : RKey) then
      .error ("failed to create VM " ++ vm.name)
    else
      .ok (cl.createObj (.unstructured vm),
        [⟨"VirtualMachine", vm.name, vm.nspace, wt.str⟩], [])
  | some (.unstructured existing) =>
    if decide (existing.spec ≠ vm.spec) then
      if F.contains (("VirtualMachine", vm.name) : RKey) then
        .error ("failed to update VM " ++ vm.name)
      else
        .ok (cl.putObj ("VirtualMachine", vm.name)
            (.unstructured { vm with resourceVersion := existing.resourceVersion }),
          [], [⟨"VirtualMachine", vm.name, vm.nspace, wt.str⟩])
    else .ok (cl, [], [])
  | some _ => .error ("failed to get VM " ++ vm.name)

/-- `reconcileResource`: dispatch on the type tag and downcast the
object.  In Go an unknown tag returns the "unsupported resource type"
error, while a known tag with a mismatched object panics on the type
assertion; the final arm merges both (it is unreachable for renderer
output, see the well-formedness predicate below). -/
def reconcileResource (F : Faults) (cl : Cluster) (resource : Resource)
    (wt : WorkloadType) : Except String ReconOut :=
  match resource.rtype, resource.object with
  | "Deployment", .deployment d => reconcileDeployment F cl d wt
  | "Service", .service s => reconcileService F cl s wt
  | "ConfigMap", .configMap m => reconcileConfigMap F cl m wt
  | "VirtualMachine", .unstructured vm => reconcileVirtualMachine F cl vm wt
  | t, _ => .error ("unsupported resource type: " ++ t)

/-- Well-formedness of a rendered resource: its type tag matches its
object's dynamic type (and an unstructured object's `GetKind()` is the
VM kind the dynamic client addresses).  Exactly the condition under
which `reconcileResource`'s unchecked type assertions cannot fail. -/
def wfResource (resource : Resource) : Bool :=
  match resource.rtype, resource.object with
  | "Deployment", .deployment _ => true
  | "Service", .service _ => true
  | "ConfigMap", .configMap _ => true
  | "VirtualMachine", .unstructured u => u.kind == "VirtualMachine"
  | _, _ => false

/-- `reconciler.ReconcileResult` together with the evolving cluster:
the state threaded through one `ReconcileTopologyWorkloads` call. -/
structure RState where
  cluster : Cluster
  created : List ResourceInfo := []
  updated : List ResourceInfo := []
  deleted : List ResourceInfo := []
  errors : List String := []
deriving DecidableEq, Repr

/-- One work item of the reconcile loop: the owning node's name, its
render result's workload type, and one rendered resource. -/
structure WorkItem where
  nodeName : String
  wt : WorkloadType
  resource : Resource
deriving DecidableEq, Repr

/-- Flatten the per-node render results into the reconcile loop's work
list (outer loop over nodes, inner loop over their resources). -/
def flattenResults (renderResults : List (String × RenderResult)) : List WorkItem :=
  renderResults.flatMap (fun p =>
    p.2.resources.map (fun res => ⟨p.1, p.2.workloadType, res⟩))

/-- The error string the reconcile loop accumulates for a failed
resource. -/
def reconcileErrMsg (it : WorkItem) (e : String) : String :=
  "failed to reconcile resource " ++ keyStr (getResourceKey it.resource) ++
    " for node " ++ it.nodeName ++ ": " ++ e

/-- The inner loop body: reconcile one resource; a failure is appended
to `errors` and the loop moves on. -/
def reconcileStep (F : Faults) (st : RState) (it : WorkItem) : RState :=
  match reconcileResource F st.cluster it.resource it.wt with
  | .ok (cl, cs, us) =>
    { st with cluster := cl, created := st.created ++ cs, updated := st.updated ++ us }
  | .error e =>
    { st with errors := st.errors ++ [reconcileErrMsg it e] }

/-- The reconcile loop over all rendered resources. -/
def processItems (F : Faults) (st : RState) (items : List WorkItem) : RState :=
  items.foldl (reconcileStep F) st

/-- Does a stored object carry the topology-owner label selecting it
into `getExistingResources`' listing? -/
def hasTopologyLabel (topology : Topology) (labels : List (String × String)) : Bool :=
  lookupS labels LabelTopology == some topology.name

/-- Insert into the snapshot map (`resources[key] = …`). -/
def insertKV (m : List (RKey × K8sObject)) (k : RKey) (o : K8sObject) :
    List (RKey × K8sObject) :=
  if m.any (fun p => p.1 == k) then
    m.map (fun p => if p.1 == k then (k, o) else p)
  else
    m ++ [(k, o)]

/-- `getExistingResources`: list Deployments, Services and ConfigMaps
carrying the topology-owner label (the VM kind is not listed), keyed by
`"<Kind>/<Name>"`. -/
def getExistingResources (topology : Topology) (cl : Cluster) :
    List (RKey × K8sObject) :=
  let ds := cl.filterMap (fun o =>
    match o with
    | .deployment d =>
      if hasTopologyLabel topology d.labels then some ((("Deployment", d.name) : RKey), o)
      else none
    | _ => none)
  let ss := cl.filterMap (fun o =>
    match o with
    | .service s =>
      if hasTopologyLabel topology s.labels then some ((("Service", s.name) : RKey), o)
      else none
    | _ => none)
  let cs := cl.filterMap (fun o =>
    match o with
    | .configMap m =>
      if hasTopologyLabel topology m.labels then some ((("ConfigMap", m.name) : RKey), o)
      else none
    | _ => none)
  (ds ++ ss ++ cs).foldl (fun acc p => insertKV acc p.1 p.2) []

/-- `deleteResource`: parse the key, delete the typed object for the
three handled kinds (NotFound tolerated), and record the deletion.  A
kind with no switch arm deletes nothing but is still recorded, exactly
as in the source. -/
def deleteResource (F : Faults) (cl : Cluster) (k : RKey) :
    Except String (Cluster × ResourceInfo) :=
  if k.1 = "Deployment" ∨ k.1 = "Service" ∨ k.1 = "ConfigMap" then
    if F.contains k then .error ("failed to delete " ++ keyStr k)
    else .ok (cl.delObj k, ⟨k.1, k.2, "", ""⟩)
  else .ok (cl, ⟨k.1, k.2, "", ""⟩)

/-- `deleteUnwantedResources`: walk the existing snapshot and delete
every key not in the desired set; the first failure aborts the walk and
is surfaced as one accumulated error. -/
def deleteUnwanted (F : Faults) (desired : List RKey) :
    RState → List (RKey × K8sObject) → RState
  | st, [] => st
  | st, (k, _) :: rest =>
    if desired.contains k then deleteUnwanted F desired st rest
    else
      match deleteResource F st.cluster k with
      | .ok (cl, info) =>
        deleteUnwanted F desired
          { st with cluster := cl, deleted := st.deleted ++ [info] } rest
      | .error e =>
        { st with errors := st.errors ++ ["failed to delete unwanted resources: " ++ e] }

/-- `ReconcileTopologyWorkloads`: snapshot the existing resources, walk
every rendered resource (accumulating per-resource failures), then
delete the unwanted leftovers.  The desired-key set is recorded before
each resource is reconciled, so it is complete even when reconciling
fails. -/
def ReconcileTopologyWorkloads (F : Faults) (topology : Topology)
    (renderResults : List (String × RenderResult)) (cl : Cluster) : RState :=
  let existing := getExistingResources topology cl
  let items := flattenResults renderResults
  let desired := items.map (fun it => getResourceKey it.resource)
  let st := processItems F { cluster := cl } items
  deleteUnwanted F desired st existing

/-! ## Sequences of administrator force-override calls -/

/-- One administrator force-override call on the classifier. -/
inductive ForceOp where
  | fVM (nodeName : String)
  | fContainer (nodeName : String)
deriving DecidableEq, Repr

/-- Apply one force-override call. -/
def applyForceOp (c : WorkloadClassifier) : ForceOp → WorkloadClassifier
  | .fVM n => ForceVM c n
  | .fContainer n => ForceContainer c n

/-- The verdict of the most recent force call for `n` in a call
sequence (`true` for `ForceVM`, `false` for `ForceContainer`), if any
call for `n` occurs. -/
def lastForceFor (n : String) (ops : List ForceOp) : Option Bool :=
  ops.foldl (fun acc op =>
    match op with
    | .fVM m => if m = n then some true else acc
    | .fContainer m => if m = n then some false else acc) none

/-- Is a VM volume a cloud-init volume? -/
def isCloudInitVolume (v : VMVolume) : Bool :=
  match v.source with
  | .cloudInitNoCloud _ => true
  | .containerDisk _ => false

/-! ## Observables used to state the reconciler claims -/

/-- The stored objects carrying a given identity key. -/
def objsAt (k : RKey) (cl : Cluster) : Cluster :=
  cl.filter (fun o => keyFor o == k)

/-- The cluster after a reconcile call: the evolved cluster on success,
the untouched one on failure. -/
def afterCluster (cl : Cluster) (r : Except String ReconOut) : Cluster :=
  match r with
  | .ok (cl', _, _) => cl'
  | .error _ => cl

/-- The records (or the error) of a reconcile call, with the cluster
projected away. -/
def deltasOf (r : Except String ReconOut) :
    Except String (List ResourceInfo × List ResourceInfo) :=
  r.map (fun x => (x.2.1, x.2.2))

/-- A work item whose reconcile against `cl` is a recorded no-op or a
failure — the situation in which a second identical pass reports
nothing for it. -/
def noopOrError (cl : Cluster) (it : WorkItem) : Prop :=
  reconcileResource [] cl it.resource it.wt = .ok (cl, [], []) ∨
  ∃ e, reconcileResource [] cl it.resource it.wt = .error e

/-- Would a fault-free reconcile of this item against `cl` mutate the
cluster (create or update)? -/
def mutationNeeded (cl : Cluster) (it : WorkItem) : Bool :=
  match reconcileResource [] cl it.resource it.wt with
  | .ok (_, cs, us) => !(cs.isEmpty && us.isEmpty)
  | .error _ => false

/-- The records whose `(type, name)` identity is a given key. -/
def filterK (k : RKey) (l : List ResourceInfo) : List ResourceInfo :=
  l.filter (fun i => (i.rtype, i.name) == k)

/-- The `Created` records a reconcile call contributes. -/
def createdDelta (r : Except String ReconOut) : List ResourceInfo :=
  match r with
  | .ok (_, cs, _) => cs
  | .error _ => []

/-- The `Updated` records a reconcile call contributes. -/
def updatedDelta (r : Except String ReconOut) : List ResourceInfo :=
  match r with
  | .ok (_, _, us) => us
  | .error _ => []

/-- The error strings a reconcile call contributes to the result. -/
def errDelta (it : WorkItem) (r : Except String ReconOut) : List String :=
  match r with
  | .ok _ => []
  | .error e => [reconcileErrMsg it e]

/-- Does `getExistingResources` list this stored object for this
topology? -/
def listedObj (topology : Topology) (o : K8sObject) : Bool :=
  match o with
  | .deployment d => hasTopologyLabel topology d.labels
  | .service s => hasTopologyLabel topology s.labels
  | .configMap m => hasTopologyLabel topology m.labels
  | .unstructured _ => false

/-! ## A concrete two-node rendering used to exercise the reconciler -/

/-- The rendered workloads of a two-container-node topology (both SR
Linux), used as a concrete reconciler input. -/
def demoRender : List (String × RenderResult) :=
  RenderTopologyWorkloads NewWorkloadClassifier { name := "t1" }
    [ ("srl1", { image := "ghcr.io/nokia/srlinux", kind := "srl" })
    , ("srl2", { image := "ghcr.io/nokia/srlinux", kind := "srl" }) ] "ns1"

/-- The first rendered work item of `demoRender` (node `srl1`'s
Deployment), the one whose reconcile gets a fault injected. -/
def demoItem : WorkItem :=
  (flattenResults demoRender).get ⟨0, by decide⟩

/-! # Theorems -/

/-! ## Helper lemmas -/

/-- Removing every binding of a key makes its lookup miss. -/
theorem lookupS_filter_self (m : List (String × String)) (k : String) :
    lookupS (m.filter (fun p => p.1 ≠ k)) k = none := by
  induction m with
  | nil => rfl
  | cons hd tl ih =>
    by_cases h : hd.1 = k
    · simpa [List.filter, h] using ih
    · simpa [List.filter, h, lookupS] using ih

/-- Bridge between Boolean `contains` and membership. -/
theorem contains_iff_mem {α : Type} [BEq α] [LawfulBEq α] (l : List α) (a : α) :
    l.contains a = true ↔ a ∈ l := by
  induction l with
  | nil => simp
  | cons h t ih => simp [List.contains_cons, ih]

/-! ## Claim C2: the explicit execution-mode directive always wins -/

/-- C2: for every classifier state and node configuration whose
environment maps `EXECUTION_MODE` to `vm`/`virtual-machine`
(case-insensitively), `DetermineWorkloadType` returns `vm`, and for
`container`/`pod` it returns `container` — regardless of image, kind,
or any force override. -/
theorem claim_C2_execution_mode_directive_wins
    (c : WorkloadClassifier) (config : NodeConfig) (v : String)
    (hv : lookupS config.environment "EXECUTION_MODE" = some v) :
    ((strToLower v = "vm" ∨ strToLower v = "virtual-machine") →
      DetermineWorkloadType c config = WorkloadType.vm) ∧
    ((strToLower v = "container" ∨ strToLower v = "pod") →
      DetermineWorkloadType c config = WorkloadType.container) := by
  unfold DetermineWorkloadType
  rw [hv]
  dsimp only
  refine ⟨fun h => ?_, fun h => ?_⟩
  · rw [if_pos h]
  · have hne : ¬(strToLower v = "vm" ∨ strToLower v = "virtual-machine") := by
      rcases h with h | h <;> rw [h] <;> decide
    rw [if_neg hne, if_pos h]

/-- Witness for C2 at concrete inputs: the directive overrides both a
container-style and a VM-style image, and the value match is
case-insensitive. -/
theorem claim_C2_execution_mode_directive_wins_witness :
    DetermineWorkloadType NewWorkloadClassifier
      { name := "x", image := "ceos:latest", kind := "ceos",
        environment := [("EXECUTION_MODE", "vm")] } = WorkloadType.vm ∧
    DetermineWorkloadType NewWorkloadClassifier
      { name := "y", image := "vyos/vyos:latest", kind := "vyos",
        environment := [("EXECUTION_MODE", "Container")] } = WorkloadType.container :=
  ⟨(claim_C2_execution_mode_directive_wins NewWorkloadClassifier
      { name := "x", image := "ceos:latest", kind := "ceos",
        environment := [("EXECUTION_MODE", "vm")] } "vm" (by decide)).1
      (Or.inl (by decide)),
   (claim_C2_execution_mode_directive_wins NewWorkloadClassifier
      { name := "y", image := "vyos/vyos:latest", kind := "vyos",
        environment := [("EXECUTION_MODE", "Container")] } "Container" (by decide)).2
      (Or.inl (by decide))⟩

/-! ## Claim C7: totality and the container default -/

/-- C7: `DetermineWorkloadType` is total over the closed two-value
enumeration, and when no directive, no force override and no
image/kind/characteristic rule matches, the verdict is the conservative
`container` default. -/
theorem claim_C7_total_and_container_default
    (c : WorkloadClassifier) (config : NodeConfig) :
    (DetermineWorkloadType c config = WorkloadType.container ∨
      DetermineWorkloadType c config = WorkloadType.vm) ∧
    (lookupS config.environment "EXECUTION_MODE" = none →
      c.forceVM.contains config.name = false →
      c.forceContainer.contains config.name = false →
      classifyByImage c config.image = none →
      classifyByKind config.kind = none →
      classifyByImageCharacteristics config.image = none →
      DetermineWorkloadType c config = WorkloadType.container) := by
  constructor
  · cases h : DetermineWorkloadType c config
    · exact Or.inl rfl
    · exact Or.inr rfl
  · intro h1 h2 h3 h4 h5 h6
    have h2m : config.name ∉ c.forceVM := by
      intro hm
      rw [(contains_iff_mem c.forceVM config.name).mpr hm] at h2
      simp at h2
    have h3m : config.name ∉ c.forceContainer := by
      intro hm
      rw [(contains_iff_mem c.forceContainer config.name).mpr hm] at h3
      simp at h3
    simp [DetermineWorkloadType, h1, classifyAfterEnv, h2m, h3m, h4, h5, h6]

/-- Witness for C7 at a node with an unrecognized image and kind. -/
theorem claim_C7_total_and_container_default_witness :
    DetermineWorkloadType NewWorkloadClassifier
      { name := "x", image := "example.net/mystery:1", kind := "mysterious" } =
      WorkloadType.container :=
  (claim_C7_total_and_container_default NewWorkloadClassifier
      { name := "x", image := "example.net/mystery:1", kind := "mysterious" }).2
    (by decide) (by decide) (by decide) (by decide) (by decide) (by decide)

/-! ## Claim C9: unrecognized execution-mode values are silently ignored -/

/-- C9: an `EXECUTION_MODE` value outside the four recognized strings
(including the documented modes `auto`, `legacy` and `hybrid`) is
silently ignored: the node classifies exactly as if the directive were
absent (force overrides, then heuristics, then the container
default). -/
theorem claim_C9_unrecognized_mode_ignored
    (c : WorkloadClassifier) (config : NodeConfig) (v : String)
    (hv : lookupS config.environment "EXECUTION_MODE" = some v)
    (h1 : strToLower v ≠ "vm") (h2 : strToLower v ≠ "virtual-machine")
    (h3 : strToLower v ≠ "container") (h4 : strToLower v ≠ "pod") :
    DetermineWorkloadType c config =
      DetermineWorkloadType c
        { config with
          environment := config.environment.filter (fun p => p.1 ≠ "EXECUTION_MODE") } := by
  unfold DetermineWorkloadType
  rw [hv, lookupS_filter_self]
  dsimp only
  rw [if_neg (by tauto), if_neg (by tauto)]
  rfl

/-- Witness for C9: the documented mode `auto` on a VM-heuristic image
is ignored, and both sides evaluate to the heuristic verdict. -/
theorem claim_C9_unrecognized_mode_ignored_witness :
    DetermineWorkloadType NewWorkloadClassifier
      { name := "r1", image := "juniper/vmx:1", kind := "vmx",
        environment := [("EXECUTION_MODE", ExecutionModeAuto)] } =
    DetermineWorkloadType NewWorkloadClassifier
      { name := "r1", image := "juniper/vmx:1", kind := "vmx",
        environment :=
          [(("EXECUTION_MODE" : String), ExecutionModeAuto)].filter
            (fun p => p.1 ≠ "EXECUTION_MODE") } :=
  claim_C9_unrecognized_mode_ignored NewWorkloadClassifier
    { name := "r1", image := "juniper/vmx:1", kind := "vmx",
      environment := [("EXECUTION_MODE", ExecutionModeAuto)] }
    ExecutionModeAuto (by decide) (by decide) (by decide) (by decide) (by decide)

/-! ## Claim C8: force overrides are mutually exclusive, last-write-wins -/

/-- Membership in the set-style registry insert. -/
theorem mem_forceInsert (l : List String) (m n : String) :
    n ∈ (if l.contains m then l else l ++ [m]) ↔ (n ∈ l ∨ n = m) := by
  by_cases hc : l.contains m
  · rw [if_pos hc]
    constructor
    · exact Or.inl
    · rintro (h | rfl)
      · exact h
      · exact (contains_iff_mem l n).mp hc
  · rw [if_neg hc]
    simp

/-- Membership in the registry after deleting one name. -/
theorem mem_forceRemove (l : List String) (m n : String) :
    n ∈ l.filter (fun x => x ≠ m) ↔ (n ∈ l ∧ n ≠ m) := by
  simp [List.mem_filter]

/-- After a force-call sequence whose most recent call for `n` has
verdict `b`, exactly the registry of that verdict contains `n`. -/
theorem force_fold_mem (c : WorkloadClassifier) (ops : List ForceOp) (n : String)
    (b : Bool) (h : lastForceFor n ops = some b) :
    ((n ∈ (ops.foldl applyForceOp c).forceVM) ↔ b = true) ∧
    ((n ∈ (ops.foldl applyForceOp c).forceContainer) ↔ b = false) := by
  induction ops using List.reverseRecOn generalizing b with
  | nil => simp [lastForceFor] at h
  | append_singleton ops' op ih =>
    rw [List.foldl_append]
    cases op with
    | fVM m =>
      have h' : (if m = n then some true else lastForceFor n ops') = some b := by
        simpa [lastForceFor, List.foldl_append] using h
      by_cases hm : m = n
      · rw [if_pos hm] at h'
        have hb : b = true := by injection h' with h'; exact h'.symm
        subst hb
        subst hm
        constructor
        · simp only [List.foldl, applyForceOp, ForceVM]
          rw [mem_forceInsert]
          simp
        · simp only [List.foldl, applyForceOp, ForceVM]
          rw [mem_forceRemove]
          simp
      · rw [if_neg hm] at h'
        obtain ⟨ih1, ih2⟩ := ih b h'
        constructor
        · simp only [List.foldl, applyForceOp, ForceVM]
          rw [mem_forceInsert, ← ih1]
          exact or_iff_left (fun he => hm he.symm)
        · simp only [List.foldl, applyForceOp, ForceVM]
          rw [mem_forceRemove, ← ih2]
          exact and_iff_left (fun he => hm he.symm)
    | fContainer m =>
      have h' : (if m = n then some false else lastForceFor n ops') = some b := by
        simpa [lastForceFor, List.foldl_append] using h
      by_cases hm : m = n
      · rw [if_pos hm] at h'
        have hb : b = false := by injection h' with h'; exact h'.symm
        subst hb
        subst hm
        constructor
        · simp only [List.foldl, applyForceOp, ForceContainer]
          rw [mem_forceRemove]
          simp
        · simp only [List.foldl, applyForceOp, ForceContainer]
          rw [mem_forceInsert]
          simp
      · rw [if_neg hm] at h'
        obtain ⟨ih1, ih2⟩ := ih b h'
        constructor
        · simp only [List.foldl, applyForceOp, ForceContainer]
          rw [mem_forceRemove, ← ih1]
          exact and_iff_left (fun he => hm he.symm)
        · simp only [List.foldl, applyForceOp, ForceContainer]
          rw [mem_forceInsert, ← ih2]
          exact or_iff_left (fun he => hm he.symm)

/-- C8: after any sequence of `ForceVM`/`ForceContainer` calls, at most
one of the two registries contains a given node, and (absent an
environment execution-mode directive) `DetermineWorkloadType` returns
the type of the most recent force call for that node. -/
theorem claim_C8_force_overrides_last_write_wins
    (c : WorkloadClassifier) (ops : List ForceOp) (config : NodeConfig) (b : Bool)
    (h : lastForceFor config.name ops = some b)
    (henv : lookupS config.environment "EXECUTION_MODE" = none) :
    ¬(config.name ∈ (ops.foldl applyForceOp c).forceVM ∧
        config.name ∈ (ops.foldl applyForceOp c).forceContainer) ∧
    DetermineWorkloadType (ops.foldl applyForceOp c) config =
      (if b then WorkloadType.vm else WorkloadType.container) := by
  obtain ⟨hvm, hcont⟩ := force_fold_mem c ops config.name b h
  constructor
  · rintro ⟨hx, hy⟩
    have hb1 := hvm.mp hx
    have hb2 := hcont.mp hy
    rw [hb1] at hb2
    exact Bool.noConfusion hb2
  · unfold DetermineWorkloadType
    rw [henv]
    unfold classifyAfterEnv
    cases b with
    | true =>
      have hmem : config.name ∈ (ops.foldl applyForceOp c).forceVM := hvm.mpr rfl
      simp [hmem]
    | false =>
      have hnot : config.name ∉ (ops.foldl applyForceOp c).forceVM := by
        intro hx
        exact absurd (hvm.mp hx) (by simp)
      have hmem : config.name ∈ (ops.foldl applyForceOp c).forceContainer := hcont.mpr rfl
      simp [hnot, hmem]

/-- Witness for C8: `ForceContainer` after `ForceVM` for the same node
yields `container`, on a VM-heuristic image. -/
theorem claim_C8_force_overrides_last_write_wins_witness :
    ¬("fw1" ∈ (([ForceOp.fVM "fw1", ForceOp.fContainer "fw1"]).foldl applyForceOp
          NewWorkloadClassifier).forceVM ∧
      "fw1" ∈ (([ForceOp.fVM "fw1", ForceOp.fContainer "fw1"]).foldl applyForceOp
          NewWorkloadClassifier).forceContainer) ∧
    DetermineWorkloadType
      (([ForceOp.fVM "fw1", ForceOp.fContainer "fw1"]).foldl applyForceOp
        NewWorkloadClassifier)
      { name := "fw1", image := "vyos/vyos:1.4", kind := "vyos" } =
      (if false then WorkloadType.vm else WorkloadType.container) :=
  claim_C8_force_overrides_last_write_wins NewWorkloadClassifier
    [ForceOp.fVM "fw1", ForceOp.fContainer "fw1"]
    { name := "fw1", image := "vyos/vyos:1.4", kind := "vyos" } false
    (by decide) (by decide)

/-! ## Claim C5 (corrected): the container Deployment's shape -/

/-- Counterexample to C5 as stated: the rendered Deployment of a
concrete container node does *not* use the Recreate update strategy —
`buildDeployment` never assigns `Spec.Strategy`, leaving the zero
value (which the API server defaults to RollingUpdate). -/
theorem claim_C5_counterexample :
    (buildDeployment { name := "srl1", image := "ghcr.io/nokia/srlinux", kind := "srl" }
        { name := "t1" } "ns1").spec.strategyType ≠ "Recreate" := by
  decide

/-- C5 as amended: for every node the rendered Deployment has exactly
one replica, exposes container ports 22 (SSH), 830 (NETCONF) and
57400 (gNMI), and grants the NET_ADMIN capability — but no update
strategy is set (the strategy field keeps its zero value, so the
cluster-side RollingUpdate default applies rather than Recreate). -/
theorem claim_C5_container_deployment_shape
    (config : NodeConfig) (topology : Topology) (ns : String) :
    (buildDeployment config topology ns).spec.replicas = 1 ∧
    (buildDeployment config topology ns).spec.strategyType = "" ∧
    (buildDeployment config topology ns).spec.template.containers.map
        (fun ct => ct.ports) =
      [[ { name := "ssh", containerPort := 22, protocol := "TCP" }
       , { name := "netconf", containerPort := 830, protocol := "TCP" }
       , { name := "gnmi", containerPort := 57400, protocol := "TCP" } ]] ∧
    (buildDeployment config topology ns).spec.template.containers.map
        (fun ct => ct.capabilitiesAdd) = [["NET_ADMIN"]] :=
  ⟨rfl, rfl, rfl, rfl⟩

/-! ## Claim C6 (corrected): the VirtualMachine manifests -/

/-- Counterexample to C6 as stated: for a concrete VM-classified node
with a declared link interface and explicit resource requests, the
renderer's `buildVirtualMachine` manifest has *no* cloud-init volume,
only the single default interface, and the fixed 1Gi/1 resource
requests (no per-kind profile, no override). -/
theorem claim_C6_counterexample :
    ((buildVirtualMachine
        { name := "fw1", image := "vyos/vyos:1.4", kind := "vyos"
        , interfaces := [{ name := "eth1", ifaceType := "ethernet" }]
        , resources := some { requests := [("memory", "4Gi")] } }
        { name := "t1" } "ns1").spec.volumes.filter isCloudInitVolume = []) ∧
    ((buildVirtualMachine
        { name := "fw1", image := "vyos/vyos:1.4", kind := "vyos"
        , interfaces := [{ name := "eth1", ifaceType := "ethernet" }]
        , resources := some { requests := [("memory", "4Gi")] } }
        { name := "t1" } "ns1").spec.interfaces.length = 1) ∧
    ((buildVirtualMachine
        { name := "fw1", image := "vyos/vyos:1.4", kind := "vyos"
        , interfaces := [{ name := "eth1", ifaceType := "ethernet" }]
        , resources := some { requests := [("memory", "4Gi")] } }
        { name := "t1" } "ns1").spec.memoryRequest = "1Gi") := by
  refine ⟨?_, ?_, ?_⟩ <;> decide

/-- C6 as amended: the *VM executor's* `renderVirtualMachine` manifest
contains one container-disk volume referencing the node's image, one
cloud-init volume carrying the generated user-data script, a default
(masquerade) interface plus one bridge interface per declared topology
link, and memory/CPU requests chosen from the per-kind lookup table and
overridden by the node's explicit resource requests when present.  The
renderer's `buildVirtualMachine`, by contrast, emits only the
container-disk volume, the default interface and fixed 1Gi/1 requests
(see the counterexample). -/
theorem claim_C6_vm_executor_manifest (config : NodeConfig) (ns : String) :
    (renderVirtualMachine ns config).spec.volumes =
      [ { name := "containerdisk", source := .containerDisk config.image }
      , { name := "cloudinitdisk"
        , source := .cloudInitNoCloud (generateCloudInitUserData config) } ] ∧
    (renderVirtualMachine ns config).spec.interfaces =
      { name := "default", mode := "masquerade" } ::
        (List.range config.interfaces.length).map (fun i =>
          { name := "net" ++ toString (i + 1), mode := "bridge" }) ∧
    (renderVirtualMachine ns config).spec.interfaces.length =
      1 + config.interfaces.length ∧
    (renderVirtualMachine ns config).spec.interfaces.head? =
      some { name := "default", mode := "masquerade" } ∧
    (config.resources = none →
      ((renderVirtualMachine ns config).spec.memoryRequest,
        (renderVirtualMachine ns config).spec.cpuRequest) =
        (match config.kind with
         | "vyos" => ("2Gi", "2")
         | "opnsense" => ("2Gi", "2")
         | "pfsense" => ("2Gi", "2")
         | "csr1000v" => ("4Gi", "2")
         | "vmx" => ("4Gi", "2")
         | _ => ("1Gi", "1"))) ∧
    (∀ r m, config.resources = some r → lookupS r.requests "memory" = some m →
      m ≠ "0" → (renderVirtualMachine ns config).spec.memoryRequest = m) ∧
    (∀ r q, config.resources = some r → lookupS r.requests "cpu" = some q →
      q ≠ "0" → (renderVirtualMachine ns config).spec.cpuRequest = q) := by
  refine ⟨rfl, rfl, ?_, rfl, ?_, ?_, ?_⟩
  · simp [renderVirtualMachine, Nat.add_comm]
  · intro h
    simp [renderVirtualMachine, vmResourceRequests, h]
  · intro r m hr hm hmne
    simp [renderVirtualMachine, vmResourceRequests, hr, hm, hmne]
  · intro r q hr hq hqne
    simp [renderVirtualMachine, vmResourceRequests, hr, hq, hqne]

/-- Witness for C6 (amended) at concrete inputs: a `vyos` node with no
explicit resources gets the 2Gi/2 profile; explicit memory and cpu
requests override the profile; and a node with one declared link gets
the default masquerade interface plus one bridge interface `net1`. -/
theorem claim_C6_vm_executor_manifest_witness :
    (((renderVirtualMachine "ns1"
        { name := "fw1", image := "vyos/vyos:1.4", kind := "vyos" }).spec.memoryRequest,
      (renderVirtualMachine "ns1"
        { name := "fw1", image := "vyos/vyos:1.4", kind := "vyos" }).spec.cpuRequest) =
      ("2Gi", "2")) ∧
    (renderVirtualMachine "ns1"
      { name := "fw2", image := "vyos/vyos:1.4", kind := "vyos"
      , resources := some { requests := [("memory", "8Gi"), ("cpu", "4")] } }).spec.memoryRequest =
      "8Gi" ∧
    (renderVirtualMachine "ns1"
      { name := "fw2", image := "vyos/vyos:1.4", kind := "vyos"
      , resources := some { requests := [("memory", "8Gi"), ("cpu", "4")] } }).spec.cpuRequest =
      "4" ∧
    (renderVirtualMachine "ns1"
      { name := "fw3", image := "vyos/vyos:1.4", kind := "vyos"
      , interfaces := [{ name := "eth1", ifaceType := "ethernet" }] }).spec.interfaces =
      [ { name := "default", mode := "masquerade" }
      , { name := "net1", mode := "bridge" } ] :=
  ⟨by
    have h := (claim_C6_vm_executor_manifest
      { name := "fw1", image := "vyos/vyos:1.4", kind := "vyos" } "ns1").2.2.2.2.1 rfl
    simpa using h,
   (claim_C6_vm_executor_manifest
      { name := "fw2", image := "vyos/vyos:1.4", kind := "vyos"
      , resources := some { requests := [("memory", "8Gi"), ("cpu", "4")] } } "ns1").2.2.2.2.2.1
     { requests := [("memory", "8Gi"), ("cpu", "4")] } "8Gi" rfl (by decide) (by decide),
   (claim_C6_vm_executor_manifest
      { name := "fw2", image := "vyos/vyos:1.4", kind := "vyos"
      , resources := some { requests := [("memory", "8Gi"), ("cpu", "4")] } } "ns1").2.2.2.2.2.2
     { requests := [("memory", "8Gi"), ("cpu", "4")] } "4" rfl (by decide) (by decide),
   by
    rw [(claim_C6_vm_executor_manifest
      { name := "fw3", image := "vyos/vyos:1.4", kind := "vyos"
      , interfaces := [{ name := "eth1", ifaceType := "ethernet" }] } "ns1").2.1]
    rfl⟩

/-! ## Claim C4 (code bug): rendering depends on map iteration order -/

/-- C4 fails on the code: two environment maps that are equal as maps
(every key looks up to the same value) but are presented in the two
iteration orders Go may choose on different runs yield *different*
Deployment manifests, because `buildDeployment` builds the container's
env-var list by ranging over the map.  Since `needsDeploymentUpdate`
compares the container list with `reflect.DeepEqual` (order-sensitive
on slices), this nondeterminism causes spurious updates — exactly what
the spec's determinism requirement forbids. -/
theorem claim_C4_env_iteration_order_breaks_determinism :
    (∀ k, lookupS [(("A" : String), ("1" : String)), ("B", "2")] k =
      lookupS [(("B" : String), ("2" : String)), ("A", "1")] k) ∧
    buildDeployment
        { name := "n1", image := "img", kind := "srl"
        , environment := [("A", "1"), ("B", "2")] } { name := "t1" } "ns1" ≠
      buildDeployment
        { name := "n1", image := "img", kind := "srl"
        , environment := [("B", "2"), ("A", "1")] } { name := "t1" } "ns1" := by
  constructor
  · intro k
    by_cases h1 : "A" = k <;> by_cases h2 : "B" = k <;>
      simp [lookupS, h1, h2]
    exact absurd (h1.trans h2.symm) (by decide)
  · decide

/-! ## Claim C10: resource type tags match their objects -/

/-- Every resource rendered for one node is well formed: its tag
matches its object's dynamic type. -/
theorem renderNodeResources_wf (config : NodeConfig) (wt : WorkloadType)
    (topology : Topology) (ns : String) :
    ∀ res ∈ renderNodeResources config wt topology ns, wfResource res = true := by
  intro res hres
  unfold renderNodeResources at hres
  rw [List.mem_append] at hres
  rcases hres with hres | hres
  · cases wt with
    | container =>
      simp only [renderContainerResources, List.mem_cons, List.mem_singleton] at hres
      rcases hres with rfl | rfl | h
      · rfl
      · rfl
      · simp at h
    | vm =>
      simp only [renderVMResources, List.mem_cons, List.mem_singleton] at hres
      rcases hres with rfl | rfl | h
      · rfl
      · rfl
      · simp at h
  · unfold renderCommonResources at hres
    by_cases hc : config.files.length > 0 ∨ config.startupConfig ≠ ""
    · rw [if_pos hc] at hres
      simp only [List.mem_singleton] at hres
      subst hres
      rfl
    · rw [if_neg hc] at hres
      simp at hres

/-- C10: every `Resource` emitted by `RenderTopologyWorkloads` carries
an object whose dynamic type matches its type tag (and the unstructured
object's kind is `VirtualMachine`), so the reconciler's unchecked type
assertions in `reconcileResource` never fail on renderer output. -/
theorem claim_C10_render_output_well_formed
    (classifier : WorkloadClassifier) (topology : Topology)
    (configs : List (String × NodeDefinition)) (ns : String) :
    ∀ p ∈ RenderTopologyWorkloads classifier topology configs ns,
      ∀ res ∈ p.2.resources, wfResource res = true := by
  intro p hp res hres
  unfold RenderTopologyWorkloads at hp
  rw [List.mem_map] at hp
  obtain ⟨q, _, rfl⟩ := hp
  exact renderNodeResources_wf _ _ _ _ res hres

/-- Witness for C10 on a concrete two-node topology (one container
node, one VM node with a config bundle): the first rendered resource of
the first node is well formed. -/
theorem claim_C10_render_output_well_formed_witness :
    wfResource
      (((RenderTopologyWorkloads NewWorkloadClassifier { name := "t1" }
          [ ("srl1", { image := "ghcr.io/nokia/srlinux", kind := "srl" })
          , ("fw1", { image := "vyos/vyos:1.4", kind := "vyos"
                    , startupConfig := "set system" }) ] "ns1").get
        ⟨0, by decide⟩).2.resources.get ⟨0, by decide⟩) = true :=
  claim_C10_render_output_well_formed NewWorkloadClassifier { name := "t1" }
    [ ("srl1", { image := "ghcr.io/nokia/srlinux", kind := "srl" })
    , ("fw1", { image := "vyos/vyos:1.4", kind := "vyos"
              , startupConfig := "set system" }) ] "ns1"
    _ (List.get_mem _ _ _) _ (List.get_mem _ _ _)

/-! ## Cluster-state lemmas -/

theorem getObj_eq_head (cl : Cluster) (k : RKey) :
    cl.getObj k = (objsAt k cl).head? := rfl

theorem objsAt_createObj (cl : Cluster) (o : K8sObject) (k : RKey) :
    objsAt k (cl.createObj o) =
      objsAt k cl ++ (if keyFor o == k then [o] else []) := by
  simp only [objsAt, Cluster.createObj, List.filter_append]
  congr 1
  by_cases h : keyFor o == k <;> simp [h]

theorem objsAt_putObj_same (cl : Cluster) (k : RKey) (o : K8sObject)
    (ho : keyFor o == k) :
    objsAt k (cl.putObj k o) = (objsAt k cl).map (fun _ => o) := by
  induction cl with
  | nil => rfl
  | cons hd tl ih =>
    by_cases h : keyFor hd == k
    · simp only [Cluster.putObj, List.map, h, if_pos, objsAt, List.filter, ho]
      simpa [objsAt, Cluster.putObj] using ih
    · simp only [Cluster.putObj, List.map, h, if_neg, objsAt, List.filter]
      simp only [h, Bool.false_eq_true, if_false]
      simpa [objsAt, Cluster.putObj] using ih

theorem objsAt_putObj_other (cl : Cluster) (k k' : RKey) (o : K8sObject)
    (ho : keyFor o == k') (hk : k ≠ k') :
    objsAt k (cl.putObj k' o) = objsAt k cl := by
  induction cl with
  | nil => rfl
  | cons hd tl ih =>
    by_cases h : keyFor hd == k'
    · have hok : ¬(keyFor o == k) := by
        intro hx
        exact hk ((eq_of_beq hx).symm.trans (eq_of_beq ho))
      have hhd : ¬(keyFor hd == k) := by
        intro hx
        exact hk ((eq_of_beq hx).symm.trans (eq_of_beq h))
      simp only [Cluster.putObj, List.map, h, if_pos, objsAt, List.filter]
      simp only [hok, hhd, Bool.false_eq_true, if_false]
      simpa [objsAt, Cluster.putObj] using ih
    · simp only [Cluster.putObj, List.map, h, Bool.false_eq_true, if_false, objsAt,
        List.filter]
      rcases hh : (keyFor hd == k) with _ | _
      · simpa [objsAt, Cluster.putObj, hh] using ih
      · simp only [if_pos]
        have := ih
        simp only [objsAt, Cluster.putObj] at this
        rw [this]

theorem objsAt_delObj_same (cl : Cluster) (k : RKey) :
    objsAt k (cl.delObj k) = [] := by
  induction cl with
  | nil => rfl
  | cons hd tl ih =>
    by_cases h : keyFor hd == k <;>
      simpa [objsAt, Cluster.delObj, List.filter, h] using ih

theorem objsAt_delObj_other (cl : Cluster) (k k' : RKey) (hk : k ≠ k') :
    objsAt k (cl.delObj k') = objsAt k cl := by
  induction cl with
  | nil => rfl
  | cons hd tl ih =>
    by_cases h : keyFor hd == k'
    · have hhd : ¬(keyFor hd == k) := by
        intro hx
        exact hk ((eq_of_beq hx).symm.trans (eq_of_beq h))
      simpa [objsAt, Cluster.delObj, List.filter, h, hhd] using ih
    · by_cases hh : keyFor hd == k <;>
        simpa [objsAt, Cluster.delObj, List.filter, h, hh] using ih

theorem mem_delObj (cl : Cluster) (k : RKey) (o : K8sObject)
    (h : o ∈ cl.delObj k) : o ∈ cl :=
  (List.mem_filter.mp h).1

theorem mem_objsAt (cl : Cluster) (k : RKey) (o : K8sObject) :
    o ∈ objsAt k cl ↔ (o ∈ cl ∧ keyFor o = k) := by
  simp [objsAt, List.mem_filter]

/-! ## Semantic comparers are reflexive up to preserved fields -/

theorem needsDeploymentUpdate_refl (d : Deployment) :
    needsDeploymentUpdate d d = false := by
  simp [needsDeploymentUpdate]

theorem needsDeploymentUpdate_rv (d : Deployment) (v : String) :
    needsDeploymentUpdate { d with resourceVersion := v } d = false := by
  simp [needsDeploymentUpdate]

theorem needsServiceUpdate_refl (s : Service) :
    needsServiceUpdate s s = false := by
  simp [needsServiceUpdate]

theorem needsServiceUpdate_preserved (s : Service) (v ip : String) :
    needsServiceUpdate
      { s with resourceVersion := v, spec := { s.spec with clusterIP := ip } } s = false := by
  simp [needsServiceUpdate]

/-! ## Per-kind reconcile lemmas: Deployment -/

theorem reconcileDeployment_objsAt_other (F : Faults) (cl : Cluster) (d : Deployment)
    (wt : WorkloadType) (k : RKey) (hk : k ≠ ("Deployment", d.name)) :
    objsAt k (afterCluster cl (reconcileDeployment F cl d wt)) = objsAt k cl := by
  have hbeq : (keyFor (K8sObject.deployment d) == k) = false := by
    simp only [keyFor, beq_eq_false_iff_ne, ne_eq]
    exact fun h => hk h.symm
  unfold reconcileDeployment
  cases hg : cl.getObj ("Deployment", d.name) with
  | none =>
    by_cases hF : (("Deployment", d.name) : RKey) ∈ F <;>
      simp [hF, afterCluster, objsAt_createObj, hbeq]
  | some obj =>
    cases obj with
    | deployment ex =>
      rcases hup : needsDeploymentUpdate ex d with _ | _
      · simp [hup, afterCluster]
      · by_cases hF : (("Deployment", d.name) : RKey) ∈ F
        · simp [hup, hF, afterCluster]
        · have hFc : ¬(List.contains F (("Deployment", d.name) : RKey) = true) :=
            fun hx => hF ((contains_iff_mem F _).mp hx)
          simp only [hup, if_true, if_neg hFc, afterCluster]
          exact objsAt_putObj_other cl k ("Deployment", d.name)
            (K8sObject.deployment { d with resourceVersion := ex.resourceVersion })
            (by simp [keyFor]) hk
    | service s => simp [afterCluster]
    | configMap m => simp [afterCluster]
    | unstructured u => simp [afterCluster]

theorem reconcileDeployment_det (F : Faults) (cl₁ cl₂ : Cluster) (d : Deployment)
    (wt : WorkloadType)
    (h : objsAt ("Deployment", d.name) cl₁ = objsAt ("Deployment", d.name) cl₂) :
    deltasOf (reconcileDeployment F cl₁ d wt) = deltasOf (reconcileDeployment F cl₂ d wt) ∧
    objsAt ("Deployment", d.name) (afterCluster cl₁ (reconcileDeployment F cl₁ d wt)) =
      objsAt ("Deployment", d.name) (afterCluster cl₂ (reconcileDeployment F cl₂ d wt)) := by
  have hg : cl₁.getObj ("Deployment", d.name) = cl₂.getObj ("Deployment", d.name) := by
    rw [getObj_eq_head, getObj_eq_head, h]
  unfold reconcileDeployment
  rw [hg]
  cases hg2 : cl₂.getObj ("Deployment", d.name) with
  | none =>
    by_cases hF : (("Deployment", d.name) : RKey) ∈ F <;>
      simp [hF, afterCluster, deltasOf, Except.map, objsAt_createObj, h]
  | some obj =>
    cases obj with
    | deployment ex =>
      rcases hup : needsDeploymentUpdate ex d with _ | _
      · simp [hup, afterCluster, deltasOf, Except.map, h]
      · by_cases hF : (("Deployment", d.name) : RKey) ∈ F
        · simp [hup, hF, afterCluster, deltasOf, Except.map, h]
        · have hFc : ¬(List.contains F (("Deployment", d.name) : RKey) = true) :=
            fun hx => hF ((contains_iff_mem F _).mp hx)
          simp only [hup, if_true, if_neg hFc, afterCluster, deltasOf, Except.map]
          refine ⟨trivial, ?_⟩
          rw [objsAt_putObj_same cl₁ ("Deployment", d.name)
              (K8sObject.deployment { d with resourceVersion := ex.resourceVersion })
              (by simp [keyFor]),
            objsAt_putObj_same cl₂ ("Deployment", d.name)
              (K8sObject.deployment { d with resourceVersion := ex.resourceVersion })
              (by simp [keyFor]), h]
    | service s => simp [afterCluster, deltasOf, Except.map, h]
    | configMap m => simp [afterCluster, deltasOf, Except.map, h]
    | unstructured u => simp [afterCluster, deltasOf, Except.map, h]

theorem reconcileDeployment_settled (F' : Faults) (cl cl' : Cluster) (d : Deployment)
    (wt : WorkloadType) (cs us : List ResourceInfo)
    (h : reconcileDeployment [] cl d wt = .ok (cl', cs, us)) :
    reconcileDeployment F' cl' d wt = .ok (cl', [], []) := by
  unfold reconcileDeployment at h ⊢
  cases hg : cl.getObj ("Deployment", d.name) with
  | none =>
    rw [hg] at h
    rw [show (List.contains ([] : Faults) (("Deployment", d.name) : RKey)) = false from rfl]
      at h
    simp only [Bool.false_eq_true, if_false] at h
    cases h
    have hempty : objsAt ("Deployment", d.name) cl = [] := by
      rw [getObj_eq_head] at hg
      exact List.head?_eq_none_iff.mp hg
    have hget : (cl.createObj (K8sObject.deployment d)).getObj ("Deployment", d.name) =
        some (K8sObject.deployment d) := by
      rw [getObj_eq_head, objsAt_createObj, hempty]
      simp [keyFor]
    simp [hget, needsDeploymentUpdate_refl]
  | some obj =>
    rw [hg] at h
    cases obj with
    | deployment ex =>
      dsimp only at h
      rcases hup : needsDeploymentUpdate ex d with _ | _
      · rw [hup] at h
        simp only [Bool.false_eq_true, if_false] at h
        cases h
        simp [hg, hup]
      · rw [hup] at h
        rw [show (List.contains ([] : Faults) (("Deployment", d.name) : RKey)) = false from rfl]
          at h
        simp only [Bool.false_eq_true, if_false, if_true] at h
        cases h
        have hne : objsAt ("Deployment", d.name) cl ≠ [] := by
          intro hnil
          rw [getObj_eq_head, hnil] at hg
          simp at hg
        have hget : (cl.putObj ("Deployment", d.name)
            (K8sObject.deployment { d with resourceVersion := ex.resourceVersion })).getObj
              ("Deployment", d.name) =
            some (K8sObject.deployment { d with resourceVersion := ex.resourceVersion }) := by
          rw [getObj_eq_head, objsAt_putObj_same _ _ _ (by simp [keyFor])]
          cases hobjs : objsAt ("Deployment", d.name) cl with
          | nil => exact absurd hobjs hne
          | cons a tl => simp
        simp [hget, needsDeploymentUpdate_rv]
    | service s => dsimp only at h; cases h
    | configMap m => dsimp only at h; cases h
    | unstructured u => dsimp only at h; cases h

theorem reconcileDeployment_noop_cluster (F : Faults) (cl : Cluster) (d : Deployment)
    (wt : WorkloadType) (cl' : Cluster)
    (h : reconcileDeployment F cl d wt = .ok (cl', [], [])) : cl' = cl := by
  unfold reconcileDeployment at h
  cases hg : cl.getObj ("Deployment", d.name) with
  | none =>
    rw [hg] at h
    by_cases hF : (("Deployment", d.name) : RKey) ∈ F
    · simp [hF] at h
    · simp [hF] at h
  | some obj =>
    rw [hg] at h
    cases obj with
    | deployment ex =>
      dsimp only at h
      rcases hup : needsDeploymentUpdate ex d with _ | _
      · rw [hup] at h
        simp only [Bool.false_eq_true, if_false] at h
        cases h
        rfl
      · rw [hup] at h
        by_cases hF : (("Deployment", d.name) : RKey) ∈ F
        · simp [hF] at h
        · simp [hF] at h
    | service s => cases h
    | configMap m => cases h
    | unstructured u => cases h

theorem reconcileDeployment_nofault (F : Faults) (cl : Cluster) (d : Deployment)
    (wt : WorkloadType) (hF : (("Deployment", d.name) : RKey) ∉ F) :
    reconcileDeployment F cl d wt = reconcileDeployment [] cl d wt := by
  unfold reconcileDeployment
  cases hg : cl.getObj ("Deployment", d.name) with
  | none => simp [hF]
  | some obj =>
    cases obj with
    | deployment ex =>
      rcases hup : needsDeploymentUpdate ex d with _ | _ <;> simp [hup, hF]
    | service s => rfl
    | configMap m => rfl
    | unstructured u => rfl

theorem reconcileDeployment_fault_inert (F : Faults) (cl : Cluster) (d : Deployment)
    (wt : WorkloadType) (hF : (("Deployment", d.name) : RKey) ∈ F) :
    afterCluster cl (reconcileDeployment F cl d wt) = cl := by
  unfold reconcileDeployment
  cases hg : cl.getObj ("Deployment", d.name) with
  | none => simp [hF, afterCluster]
  | some obj =>
    cases obj with
    | deployment ex =>
      rcases hup : needsDeploymentUpdate ex d with _ | _ <;> simp [hup, hF, afterCluster]
    | service s => rfl
    | configMap m => rfl
    | unstructured u => rfl

theorem reconcileDeployment_record_keys (F : Faults) (cl : Cluster) (d : Deployment)
    (wt : WorkloadType) (cl' : Cluster) (cs us : List ResourceInfo)
    (h : reconcileDeployment F cl d wt = .ok (cl', cs, us)) :
    ∀ i ∈ cs ++ us, ((i.rtype, i.name) : RKey) = ("Deployment", d.name) := by
  unfold reconcileDeployment at h
  cases hg : cl.getObj ("Deployment", d.name) with
  | none =>
    rw [hg] at h
    by_cases hF : (("Deployment", d.name) : RKey) ∈ F
    · rw [if_pos ((contains_iff_mem F _).mpr hF)] at h
      cases h
    · rw [if_neg (fun hx => hF ((contains_iff_mem F _).mp hx))] at h
      cases h
      intro i hi
      simp at hi
      subst hi
      rfl
  | some obj =>
    rw [hg] at h
    cases obj with
    | deployment ex =>
      dsimp only at h
      rcases hup : needsDeploymentUpdate ex d with _ | _
      · rw [hup] at h
        simp only [Bool.false_eq_true, if_false] at h
        cases h
        intro i hi
        simp at hi
      · rw [hup] at h
        simp only [if_true] at h
        by_cases hF : (("Deployment", d.name) : RKey) ∈ F
        · rw [if_pos ((contains_iff_mem F _).mpr hF)] at h
          cases h
        · rw [if_neg (fun hx => hF ((contains_iff_mem F _).mp hx))] at h
          cases h
          intro i hi
          simp at hi
          subst hi
          rfl
    | service s => dsimp only at h; cases h
    | configMap m => dsimp only at h; cases h
    | unstructured u => dsimp only at h; cases h

theorem reconcileDeployment_fault_mut_error (F : Faults) (cl : Cluster) (d : Deployment)
    (wt : WorkloadType) (c2 : Cluster) (cs us : List ResourceInfo)
    (h : reconcileDeployment [] cl d wt = .ok (c2, cs, us))
    (hne : cs ≠ [] ∨ us ≠ [])
    (hF : (("Deployment", d.name) : RKey) ∈ F) :
    ∃ e, reconcileDeployment F cl d wt = .error e := by
  unfold reconcileDeployment at h ⊢
  cases hg : cl.getObj ("Deployment", d.name) with
  | none =>
    rw [hg] at h
    rw [if_pos ((contains_iff_mem F _).mpr hF)]
    exact ⟨_, rfl⟩
  | some obj =>
    rw [hg] at h
    cases obj with
    | deployment ex =>
      dsimp only at h ⊢
      rcases hup : needsDeploymentUpdate ex d with _ | _
      · rw [hup] at h
        simp only [Bool.false_eq_true, if_false] at h
        cases h
        simp at hne
      · rw [if_pos rfl, if_pos ((contains_iff_mem F _).mpr hF)]
        exact ⟨_, rfl⟩
    | service s => dsimp only at h; cases h
    | configMap m => dsimp only at h; cases h
    | unstructured u => dsimp only at h; cases h

/-! ## Per-kind reconcile lemmas: Service -/

theorem reconcileService_objsAt_other (F : Faults) (cl : Cluster) (s : Service)
    (wt : WorkloadType) (k : RKey) (hk : k ≠ ("Service", s.name)) :
    objsAt k (afterCluster cl (reconcileService F cl s wt)) = objsAt k cl := by
  have hbeq : (keyFor (K8sObject.service s) == k) = false := by
    simp only [keyFor, beq_eq_false_iff_ne, ne_eq]
    exact fun h => hk h.symm
  unfold reconcileService
  cases hg : cl.getObj ("Service", s.name) with
  | none =>
    by_cases hF : (("Service", s.name) : RKey) ∈ F <;>
      simp [hF, afterCluster, objsAt_createObj, hbeq]
  | some obj =>
    cases obj with
    | service ex =>
      rcases hup : needsServiceUpdate ex s with _ | _
      · simp [hup, afterCluster]
      · by_cases hF : (("Service", s.name) : RKey) ∈ F
        · simp [hup, hF, afterCluster]
        · have hFc : ¬(List.contains F (("Service", s.name) : RKey) = true) :=
            fun hx => hF ((contains_iff_mem F _).mp hx)
          simp only [hup, if_true, if_neg hFc, afterCluster]
          exact objsAt_putObj_other cl k ("Service", s.name)
            (K8sObject.service { s with resourceVersion := ex.resourceVersion, spec := { s.spec with clusterIP := ex.spec.clusterIP } })
            (by simp [keyFor]) hk
    | deployment d0 => simp [afterCluster]
    | configMap m0 => simp [afterCluster]
    | unstructured u0 => simp [afterCluster]

theorem reconcileService_det (F : Faults) (cl₁ cl₂ : Cluster) (s : Service)
    (wt : WorkloadType)
    (h : objsAt ("Service", s.name) cl₁ = objsAt ("Service", s.name) cl₂) :
    deltasOf (reconcileService F cl₁ s wt) =
      deltasOf (reconcileService F cl₂ s wt) ∧
    objsAt ("Service", s.name)
        (afterCluster cl₁ (reconcileService F cl₁ s wt)) =
      objsAt ("Service", s.name)
        (afterCluster cl₂ (reconcileService F cl₂ s wt)) := by
  have hg : cl₁.getObj ("Service", s.name) = cl₂.getObj ("Service", s.name) := by
    rw [getObj_eq_head, getObj_eq_head, h]
  unfold reconcileService
  rw [hg]
  cases hg2 : cl₂.getObj ("Service", s.name) with
  | none =>
    by_cases hF : (("Service", s.name) : RKey) ∈ F <;>
      simp [hF, afterCluster, deltasOf, Except.map, objsAt_createObj, h]
  | some obj =>
    cases obj with
    | service ex =>
      rcases hup : needsServiceUpdate ex s with _ | _
      · simp [hup, afterCluster, deltasOf, Except.map, h]
      · by_cases hF : (("Service", s.name) : RKey) ∈ F
        · simp [hup, hF, afterCluster, deltasOf, Except.map, h]
        · have hFc : ¬(List.contains F (("Service", s.name) : RKey) = true) :=
            fun hx => hF ((contains_iff_mem F _).mp hx)
          simp only [hup, if_true, if_neg hFc, afterCluster, deltasOf, Except.map]
          refine ⟨trivial, ?_⟩
          rw [objsAt_putObj_same cl₁ ("Service", s.name)
              (K8sObject.service { s with resourceVersion := ex.resourceVersion, spec := { s.spec with clusterIP := ex.spec.clusterIP } })
              (by simp [keyFor]),
            objsAt_putObj_same cl₂ ("Service", s.name)
              (K8sObject.service { s with resourceVersion := ex.resourceVersion, spec := { s.spec with clusterIP := ex.spec.clusterIP } })
              (by simp [keyFor]), h]
    | deployment d0 => simp [afterCluster, deltasOf, Except.map, h]
    | configMap m0 => simp [afterCluster, deltasOf, Except.map, h]
    | unstructured u0 => simp [afterCluster, deltasOf, Except.map, h]

theorem reconcileService_settled (F' : Faults) (cl cl' : Cluster) (s : Service)
    (wt : WorkloadType) (cs us : List ResourceInfo)
    (h : reconcileService [] cl s wt = .ok (cl', cs, us)) :
    reconcileService F' cl' s wt = .ok (cl', [], []) := by
  unfold reconcileService at h ⊢
  cases hg : cl.getObj ("Service", s.name) with
  | none =>
    rw [hg] at h
    rw [show (List.contains ([] : Faults) (("Service", s.name) : RKey)) = false
      from rfl] at h
    simp only [Bool.false_eq_true, if_false] at h
    cases h
    have hempty : objsAt ("Service", s.name) cl = [] := by
      rw [getObj_eq_head] at hg
      exact List.head?_eq_none_iff.mp hg
    have hget : (cl.createObj (K8sObject.service s)).getObj ("Service", s.name) =
        some (K8sObject.service s) := by
      rw [getObj_eq_head, objsAt_createObj, hempty]
      simp [keyFor]
    simp [hget, needsServiceUpdate_refl]
  | some obj =>
    rw [hg] at h
    cases obj with
    | service ex =>
      dsimp only at h
      rcases hup : needsServiceUpdate ex s with _ | _
      · rw [hup] at h
        simp only [Bool.false_eq_true, if_false] at h
        cases h
        simp [hg, hup]
      · rw [hup] at h
        rw [show (List.contains ([] : Faults) (("Service", s.name) : RKey)) = false
          from rfl] at h
        simp only [Bool.false_eq_true, if_false, if_true] at h
        cases h
        have hne : objsAt ("Service", s.name) cl ≠ [] := by
          intro hnil
          rw [getObj_eq_head, hnil] at hg
          simp at hg
        have hget : (cl.putObj ("Service", s.name)
            (K8sObject.service { s with resourceVersion := ex.resourceVersion, spec := { s.spec with clusterIP := ex.spec.clusterIP } })).getObj
              ("Service", s.name) =
            some (K8sObject.service { s with resourceVersion := ex.resourceVersion, spec := { s.spec with clusterIP := ex.spec.clusterIP } }) := by
          rw [getObj_eq_head, objsAt_putObj_same _ _ _ (by simp [keyFor])]
          cases hobjs : objsAt ("Service", s.name) cl with
          | nil => exact absurd hobjs hne
          | cons a tl => simp
        simp [hget, needsServiceUpdate_preserved]
    | deployment d0 => dsimp only at h; cases h
    | configMap m0 => dsimp only at h; cases h
    | unstructured u0 => dsimp only at h; cases h

theorem reconcileService_noop_cluster (F : Faults) (cl : Cluster) (s : Service)
    (wt : WorkloadType) (cl' : Cluster)
    (h : reconcileService F cl s wt = .ok (cl', [], [])) : cl' = cl := by
  unfold reconcileService at h
  cases hg : cl.getObj ("Service", s.name) with
  | none =>
    rw [hg] at h
    by_cases hF : (("Service", s.name) : RKey) ∈ F
    · simp [hF] at h
    · simp [hF] at h
  | some obj =>
    rw [hg] at h
    cases obj with
    | service ex =>
      dsimp only at h
      rcases hup : needsServiceUpdate ex s with _ | _
      · rw [hup] at h
        simp only [Bool.false_eq_true, if_false] at h
        cases h
        rfl
      · rw [hup] at h
        by_cases hF : (("Service", s.name) : RKey) ∈ F
        · simp [hF] at h
        · simp [hF] at h
    | deployment d0 => cases h
    | configMap m0 => cases h
    | unstructured u0 => cases h

theorem reconcileService_nofault (F : Faults) (cl : Cluster) (s : Service)
    (wt : WorkloadType) (hF : (("Service", s.name) : RKey) ∉ F) :
    reconcileService F cl s wt = reconcileService [] cl s wt := by
  unfold reconcileService
  cases hg : cl.getObj ("Service", s.name) with
  | none => simp [hF]
  | some obj =>
    cases obj with
    | service ex =>
      rcases hup : needsServiceUpdate ex s with _ | _ <;> simp [hup, hF]
    | deployment d0 => rfl
    | configMap m0 => rfl
    | unstructured u0 => rfl

theorem reconcileService_fault_inert (F : Faults) (cl : Cluster) (s : Service)
    (wt : WorkloadType) (hF : (("Service", s.name) : RKey) ∈ F) :
    afterCluster cl (reconcileService F cl s wt) = cl := by
  unfold reconcileService
  cases hg : cl.getObj ("Service", s.name) with
  | none => simp [hF, afterCluster]
  | some obj =>
    cases obj with
    | service ex =>
      rcases hup : needsServiceUpdate ex s with _ | _ <;> simp [hup, hF, afterCluster]
    | deployment d0 => rfl
    | configMap m0 => rfl
    | unstructured u0 => rfl

theorem reconcileService_record_keys (F : Faults) (cl : Cluster) (s : Service)
    (wt : WorkloadType) (cl' : Cluster) (cs us : List ResourceInfo)
    (h : reconcileService F cl s wt = .ok (cl', cs, us)) :
    ∀ i ∈ cs ++ us, ((i.rtype, i.name) : RKey) = ("Service", s.name) := by
  unfold reconcileService at h
  cases hg : cl.getObj ("Service", s.name) with
  | none =>
    rw [hg] at h
    by_cases hF : (("Service", s.name) : RKey) ∈ F
    · rw [if_pos ((contains_iff_mem F _).mpr hF)] at h
      cases h
    · rw [if_neg (fun hx => hF ((contains_iff_mem F _).mp hx))] at h
      cases h
      intro i hi
      simp at hi
      subst hi
      rfl
  | some obj =>
    rw [hg] at h
    cases obj with
    | service ex =>
      dsimp only at h
      rcases hup : needsServiceUpdate ex s with _ | _
      · rw [hup] at h
        simp only [Bool.false_eq_true, if_false] at h
        cases h
        intro i hi
        simp at hi
      · rw [hup] at h
        simp only [if_true] at h
        by_cases hF : (("Service", s.name) : RKey) ∈ F
        · rw [if_pos ((contains_iff_mem F _).mpr hF)] at h
          cases h
        · rw [if_neg (fun hx => hF ((contains_iff_mem F _).mp hx))] at h
          cases h
          intro i hi
          simp at hi
          subst hi
          rfl
    | deployment d0 => dsimp only at h; cases h
    | configMap m0 => dsimp only at h; cases h
    | unstructured u0 => dsimp only at h; cases h

theorem reconcileService_fault_mut_error (F : Faults) (cl : Cluster) (s : Service)
    (wt : WorkloadType) (c2 : Cluster) (cs us : List ResourceInfo)
    (h : reconcileService [] cl s wt = .ok (c2, cs, us))
    (hne : cs ≠ [] ∨ us ≠ [])
    (hF : (("Service", s.name) : RKey) ∈ F) :
    ∃ e, reconcileService F cl s wt = .error e := by
  unfold reconcileService at h ⊢
  cases hg : cl.getObj ("Service", s.name) with
  | none =>
    rw [hg] at h
    rw [if_pos ((contains_iff_mem F _).mpr hF)]
    exact ⟨_, rfl⟩
  | some obj =>
    rw [hg] at h
    cases obj with
    | service ex =>
      dsimp only at h ⊢
      rcases hup : needsServiceUpdate ex s with _ | _
      · rw [hup] at h
        simp only [Bool.false_eq_true, if_false] at h
        cases h
        simp at hne
      · rw [if_pos rfl, if_pos ((contains_iff_mem F _).mpr hF)]
        exact ⟨_, rfl⟩
    | deployment d0 => dsimp only at h; cases h
    | configMap m0 => dsimp only at h; cases h
    | unstructured u0 => dsimp only at h; cases h

/-! ## Per-kind reconcile lemmas: ConfigMap -/

theorem reconcileConfigMap_objsAt_other (F : Faults) (cl : Cluster) (m : ConfigMap)
    (wt : WorkloadType) (k : RKey) (hk : k ≠ ("ConfigMap", m.name)) :
    objsAt k (afterCluster cl (reconcileConfigMap F cl m wt)) = objsAt k cl := by
  have hbeq : (keyFor (K8sObject.configMap m) == k) = false := by
    simp only [keyFor, beq_eq_false_iff_ne, ne_eq]
    exact fun h => hk h.symm
  unfold reconcileConfigMap
  cases hg : cl.getObj ("ConfigMap", m.name) with
  | none =>
    by_cases hF : (("ConfigMap", m.name) : RKey) ∈ F <;>
      simp [hF, afterCluster, objsAt_createObj, hbeq]
  | some obj =>
    cases obj with
    | configMap ex =>
      rcases hup : decide (ex.data ≠ m.data) with _ | _
      · simp [hup, afterCluster]
      · by_cases hF : (("ConfigMap", m.name) : RKey) ∈ F
        · simp [hup, hF, afterCluster]
        · have hFc : ¬(List.contains F (("ConfigMap", m.name) : RKey) = true) :=
            fun hx => hF ((contains_iff_mem F _).mp hx)
          simp only [hup, if_true, if_neg hFc, afterCluster]
          exact objsAt_putObj_other cl k ("ConfigMap", m.name)
            (K8sObject.configMap { m with resourceVersion := ex.resourceVersion })
            (by simp [keyFor]) hk
    | deployment d0 => simp [afterCluster]
    | service s0 => simp [afterCluster]
    | unstructured u0 => simp [afterCluster]

theorem reconcileConfigMap_det (F : Faults) (cl₁ cl₂ : Cluster) (m : ConfigMap)
    (wt : WorkloadType)
    (h : objsAt ("ConfigMap", m.name) cl₁ = objsAt ("ConfigMap", m.name) cl₂) :
    deltasOf (reconcileConfigMap F cl₁ m wt) =
      deltasOf (reconcileConfigMap F cl₂ m wt) ∧
    objsAt ("ConfigMap", m.name)
        (afterCluster cl₁ (reconcileConfigMap F cl₁ m wt)) =
      objsAt ("ConfigMap", m.name)
        (afterCluster cl₂ (reconcileConfigMap F cl₂ m wt)) := by
  have hg : cl₁.getObj ("ConfigMap", m.name) = cl₂.getObj ("ConfigMap", m.name) := by
    rw [getObj_eq_head, getObj_eq_head, h]
  unfold reconcileConfigMap
  rw [hg]
  cases hg2 : cl₂.getObj ("ConfigMap", m.name) with
  | none =>
    by_cases hF : (("ConfigMap", m.name) : RKey) ∈ F <;>
      simp [hF, afterCluster, deltasOf, Except.map, objsAt_createObj, h]
  | some obj =>
    cases obj with
    | configMap ex =>
      rcases hup : decide (ex.data ≠ m.data) with _ | _
      · simp [hup, afterCluster, deltasOf, Except.map, h]
      · by_cases hF : (("ConfigMap", m.name) : RKey) ∈ F
        · simp [hup, hF, afterCluster, deltasOf, Except.map, h]
        · have hFc : ¬(List.contains F (("ConfigMap", m.name) : RKey) = true) :=
            fun hx => hF ((contains_iff_mem F _).mp hx)
          simp only [hup, if_true, if_neg hFc, afterCluster, deltasOf, Except.map]
          refine ⟨trivial, ?_⟩
          rw [objsAt_putObj_same cl₁ ("ConfigMap", m.name)
              (K8sObject.configMap { m with resourceVersion := ex.resourceVersion })
              (by simp [keyFor]),
            objsAt_putObj_same cl₂ ("ConfigMap", m.name)
              (K8sObject.configMap { m with resourceVersion := ex.resourceVersion })
              (by simp [keyFor]), h]
    | deployment d0 => simp [afterCluster, deltasOf, Except.map, h]
    | service s0 => simp [afterCluster, deltasOf, Except.map, h]
    | unstructured u0 => simp [afterCluster, deltasOf, Except.map, h]

theorem reconcileConfigMap_settled (F' : Faults) (cl cl' : Cluster) (m : ConfigMap)
    (wt : WorkloadType) (cs us : List ResourceInfo)
    (h : reconcileConfigMap [] cl m wt = .ok (cl', cs, us)) :
    reconcileConfigMap F' cl' m wt = .ok (cl', [], []) := by
  unfold reconcileConfigMap at h ⊢
  cases hg : cl.getObj ("ConfigMap", m.name) with
  | none =>
    rw [hg] at h
    rw [show (List.contains ([] : Faults) (("ConfigMap", m.name) : RKey)) = false
      from rfl] at h
    simp only [Bool.false_eq_true, if_false] at h
    cases h
    have hempty : objsAt ("ConfigMap", m.name) cl = [] := by
      rw [getObj_eq_head] at hg
      exact List.head?_eq_none_iff.mp hg
    have hget : (cl.createObj (K8sObject.configMap m)).getObj ("ConfigMap", m.name) =
        some (K8sObject.configMap m) := by
      rw [getObj_eq_head, objsAt_createObj, hempty]
      simp [keyFor]
    simp [hget]
  | some obj =>
    rw [hg] at h
    cases obj with
    | configMap ex =>
      dsimp only at h
      rcases hup : decide (ex.data ≠ m.data) with _ | _
      · rw [hup] at h
        simp only [Bool.false_eq_true, if_false] at h
        cases h
        simp [hg, hup]
      · rw [hup] at h
        rw [show (List.contains ([] : Faults) (("ConfigMap", m.name) : RKey)) = false
          from rfl] at h
        simp only [Bool.false_eq_true, if_false, if_true] at h
        cases h
        have hne : objsAt ("ConfigMap", m.name) cl ≠ [] := by
          intro hnil
          rw [getObj_eq_head, hnil] at hg
          simp at hg
        have hget : (cl.putObj ("ConfigMap", m.name)
            (K8sObject.configMap { m with resourceVersion := ex.resourceVersion })).getObj
              ("ConfigMap", m.name) =
            some (K8sObject.configMap { m with resourceVersion := ex.resourceVersion }) := by
          rw [getObj_eq_head, objsAt_putObj_same _ _ _ (by simp [keyFor])]
          cases hobjs : objsAt ("ConfigMap", m.name) cl with
          | nil => exact absurd hobjs hne
          | cons a tl => simp
        simp [hget]
    | deployment d0 => dsimp only at h; cases h
    | service s0 => dsimp only at h; cases h
    | unstructured u0 => dsimp only at h; cases h

theorem reconcileConfigMap_noop_cluster (F : Faults) (cl : Cluster) (m : ConfigMap)
    (wt : WorkloadType) (cl' : Cluster)
    (h : reconcileConfigMap F cl m wt = .ok (cl', [], [])) : cl' = cl := by
  unfold reconcileConfigMap at h
  cases hg : cl.getObj ("ConfigMap", m.name) with
  | none =>
    rw [hg] at h
    by_cases hF : (("ConfigMap", m.name) : RKey) ∈ F
    · simp [hF] at h
    · simp [hF] at h
  | some obj =>
    rw [hg] at h
    cases obj with
    | configMap ex =>
      dsimp only at h
      rcases hup : decide (ex.data ≠ m.data) with _ | _
      · rw [hup] at h
        simp only [Bool.false_eq_true, if_false] at h
        cases h
        rfl
      · rw [hup] at h
        by_cases hF : (("ConfigMap", m.name) : RKey) ∈ F
        · simp [hF] at h
        · simp [hF] at h
    | deployment d0 => cases h
    | service s0 => cases h
    | unstructured u0 => cases h

theorem reconcileConfigMap_nofault (F : Faults) (cl : Cluster) (m : ConfigMap)
    (wt : WorkloadType) (hF : (("ConfigMap", m.name) : RKey) ∉ F) :
    reconcileConfigMap F cl m wt = reconcileConfigMap [] cl m wt := by
  unfold reconcileConfigMap
  cases hg : cl.getObj ("ConfigMap", m.name) with
  | none => simp [hF]
  | some obj =>
    cases obj with
    | configMap ex =>
      rcases hup : decide (ex.data ≠ m.data) with _ | _ <;> simp [hup, hF]
    | deployment d0 => rfl
    | service s0 => rfl
    | unstructured u0 => rfl

theorem reconcileConfigMap_fault_inert (F : Faults) (cl : Cluster) (m : ConfigMap)
    (wt : WorkloadType) (hF : (("ConfigMap", m.name) : RKey) ∈ F) :
    afterCluster cl (reconcileConfigMap F cl m wt) = cl := by
  unfold reconcileConfigMap
  cases hg : cl.getObj ("ConfigMap", m.name) with
  | none => simp [hF, afterCluster]
  | some obj =>
    cases obj with
    | configMap ex =>
      rcases hup : decide (ex.data ≠ m.data) with _ | _ <;> simp [hup, hF, afterCluster]
    | deployment d0 => rfl
    | service s0 => rfl
    | unstructured u0 => rfl

theorem reconcileConfigMap_record_keys (F : Faults) (cl : Cluster) (m : ConfigMap)
    (wt : WorkloadType) (cl' : Cluster) (cs us : List ResourceInfo)
    (h : reconcileConfigMap F cl m wt = .ok (cl', cs, us)) :
    ∀ i ∈ cs ++ us, ((i.rtype, i.name) : RKey) = ("ConfigMap", m.name) := by
  unfold reconcileConfigMap at h
  cases hg : cl.getObj ("ConfigMap", m.name) with
  | none =>
    rw [hg] at h
    by_cases hF : (("ConfigMap", m.name) : RKey) ∈ F
    · rw [if_pos ((contains_iff_mem F _).mpr hF)] at h
      cases h
    · rw [if_neg (fun hx => hF ((contains_iff_mem F _).mp hx))] at h
      cases h
      intro i hi
      simp at hi
      subst hi
      rfl
  | some obj =>
    rw [hg] at h
    cases obj with
    | configMap ex =>
      dsimp only at h
      rcases hup : decide (ex.data ≠ m.data) with _ | _
      · rw [hup] at h
        simp only [Bool.false_eq_true, if_false] at h
        cases h
        intro i hi
        simp at hi
      · rw [hup] at h
        simp only [if_true] at h
        by_cases hF : (("ConfigMap", m.name) : RKey) ∈ F
        · rw [if_pos ((contains_iff_mem F _).mpr hF)] at h
          cases h
        · rw [if_neg (fun hx => hF ((contains_iff_mem F _).mp hx))] at h
          cases h
          intro i hi
          simp at hi
          subst hi
          rfl
    | deployment d0 => dsimp only at h; cases h
    | service s0 => dsimp only at h; cases h
    | unstructured u0 => dsimp only at h; cases h

theorem reconcileConfigMap_fault_mut_error (F : Faults) (cl : Cluster) (m : ConfigMap)
    (wt : WorkloadType) (c2 : Cluster) (cs us : List ResourceInfo)
    (h : reconcileConfigMap [] cl m wt = .ok (c2, cs, us))
    (hne : cs ≠ [] ∨ us ≠ [])
    (hF : (("ConfigMap", m.name) : RKey) ∈ F) :
    ∃ e, reconcileConfigMap F cl m wt = .error e := by
  unfold reconcileConfigMap at h ⊢
  cases hg : cl.getObj ("ConfigMap", m.name) with
  | none =>
    rw [hg] at h
    rw [if_pos ((contains_iff_mem F _).mpr hF)]
    exact ⟨_, rfl⟩
  | some obj =>
    rw [hg] at h
    cases obj with
    | configMap ex =>
      dsimp only at h ⊢
      rcases hup : decide (ex.data ≠ m.data) with _ | _
      · rw [hup] at h
        simp only [Bool.false_eq_true, if_false] at h
        cases h
        simp at hne
      · rw [if_pos rfl, if_pos ((contains_iff_mem F _).mpr hF)]
        exact ⟨_, rfl⟩
    | deployment d0 => dsimp only at h; cases h
    | service s0 => dsimp only at h; cases h
    | unstructured u0 => dsimp only at h; cases h

/-! ## Per-kind reconcile lemmas: VirtualMachine -/

theorem reconcileVirtualMachine_objsAt_other (F : Faults) (cl : Cluster) (vm : VirtualMachine)
    (wt : WorkloadType) (k : RKey) (hk : k ≠ ("VirtualMachine", vm.name))
    (hkind : vm.kind = "VirtualMachine") :
    objsAt k (afterCluster cl (reconcileVirtualMachine F cl vm wt)) = objsAt k cl := by
  have hbeq : (keyFor (K8sObject.unstructured vm) == k) = false := by
    simp only [keyFor, hkind, beq_eq_false_iff_ne, ne_eq]
    exact fun h => hk h.symm
  unfold reconcileVirtualMachine
  cases hg : cl.getObj ("VirtualMachine", vm.name) with
  | none =>
    by_cases hF : (("VirtualMachine", vm.name) : RKey) ∈ F <;>
      simp [hF, afterCluster, objsAt_createObj, hbeq]
  | some obj =>
    cases obj with
    | unstructured ex =>
      rcases hup : decide (ex.spec ≠ vm.spec) with _ | _
      · simp [hup, afterCluster]
      · by_cases hF : (("VirtualMachine", vm.name) : RKey) ∈ F
        · simp [hup, hF, afterCluster]
        · have hFc : ¬(List.contains F (("VirtualMachine", vm.name) : RKey) = true) :=
            fun hx => hF ((contains_iff_mem F _).mp hx)
          simp only [hup, if_true, if_neg hFc, afterCluster]
          exact objsAt_putObj_other cl k ("VirtualMachine", vm.name)
            (K8sObject.unstructured { vm with resourceVersion := ex.resourceVersion })
            (by simp [keyFor, hkind]) hk
    | deployment d0 => simp [afterCluster]
    | service s0 => simp [afterCluster]
    | configMap m0 => simp [afterCluster]

theorem reconcileVirtualMachine_det (F : Faults) (cl₁ cl₂ : Cluster) (vm : VirtualMachine)
    (wt : WorkloadType) (hkind : vm.kind = "VirtualMachine")
    (h : objsAt ("VirtualMachine", vm.name) cl₁ = objsAt ("VirtualMachine", vm.name) cl₂) :
    deltasOf (reconcileVirtualMachine F cl₁ vm wt) =
      deltasOf (reconcileVirtualMachine F cl₂ vm wt) ∧
    objsAt ("VirtualMachine", vm.name)
        (afterCluster cl₁ (reconcileVirtualMachine F cl₁ vm wt)) =
      objsAt ("VirtualMachine", vm.name)
        (afterCluster cl₂ (reconcileVirtualMachine F cl₂ vm wt)) := by
  have hg : cl₁.getObj ("VirtualMachine", vm.name) = cl₂.getObj ("VirtualMachine", vm.name) := by
    rw [getObj_eq_head, getObj_eq_head, h]
  unfold reconcileVirtualMachine
  rw [hg]
  cases hg2 : cl₂.getObj ("VirtualMachine", vm.name) with
  | none =>
    by_cases hF : (("VirtualMachine", vm.name) : RKey) ∈ F <;>
      simp [hF, afterCluster, deltasOf, Except.map, objsAt_createObj, h]
  | some obj =>
    cases obj with
    | unstructured ex =>
      rcases hup : decide (ex.spec ≠ vm.spec) with _ | _
      · simp [hup, afterCluster, deltasOf, Except.map, h]
      · by_cases hF : (("VirtualMachine", vm.name) : RKey) ∈ F
        · simp [hup, hF, afterCluster, deltasOf, Except.map, h]
        · have hFc : ¬(List.contains F (("VirtualMachine", vm.name) : RKey) = true) :=
            fun hx => hF ((contains_iff_mem F _).mp hx)
          simp only [hup, if_true, if_neg hFc, afterCluster, deltasOf, Except.map]
          refine ⟨trivial, ?_⟩
          rw [objsAt_putObj_same cl₁ ("VirtualMachine", vm.name)
              (K8sObject.unstructured { vm with resourceVersion := ex.resourceVersion })
              (by simp [keyFor, hkind]),
            objsAt_putObj_same cl₂ ("VirtualMachine", vm.name)
              (K8sObject.unstructured { vm with resourceVersion := ex.resourceVersion })
              (by simp [keyFor, hkind]), h]
    | deployment d0 => simp [afterCluster, deltasOf, Except.map, h]
    | service s0 => simp [afterCluster, deltasOf, Except.map, h]
    | configMap m0 => simp [afterCluster, deltasOf, Except.map, h]

theorem reconcileVirtualMachine_settled (F' : Faults) (cl cl' : Cluster) (vm : VirtualMachine)
    (wt : WorkloadType) (cs us : List ResourceInfo) (hkind : vm.kind = "VirtualMachine")
    (h : reconcileVirtualMachine [] cl vm wt = .ok (cl', cs, us)) :
    reconcileVirtualMachine F' cl' vm wt = .ok (cl', [], []) := by
  unfold reconcileVirtualMachine at h ⊢
  cases hg : cl.getObj ("VirtualMachine", vm.name) with
  | none =>
    rw [hg] at h
    rw [show (List.contains ([] : Faults) (("VirtualMachine", vm.name) : RKey)) = false
      from rfl] at h
    simp only [Bool.false_eq_true, if_false] at h
    cases h
    have hempty : objsAt ("VirtualMachine", vm.name) cl = [] := by
      rw [getObj_eq_head] at hg
      exact List.head?_eq_none_iff.mp hg
    have hget : (cl.createObj (K8sObject.unstructured vm)).getObj ("VirtualMachine", vm.name) =
        some (K8sObject.unstructured vm) := by
      rw [getObj_eq_head, objsAt_createObj, hempty]
      simp [keyFor, hkind]
    simp [hget]
  | some obj =>
    rw [hg] at h
    cases obj with
    | unstructured ex =>
      dsimp only at h
      rcases hup : decide (ex.spec ≠ vm.spec) with _ | _
      · rw [hup] at h
        simp only [Bool.false_eq_true, if_false] at h
        cases h
        simp [hg, hup]
      · rw [hup] at h
        rw [show (List.contains ([] : Faults) (("VirtualMachine", vm.name) : RKey)) = false
          from rfl] at h
        simp only [Bool.false_eq_true, if_false, if_true] at h
        cases h
        have hne : objsAt ("VirtualMachine", vm.name) cl ≠ [] := by
          intro hnil
          rw [getObj_eq_head, hnil] at hg
          simp at hg
        have hget : (cl.putObj ("VirtualMachine", vm.name)
            (K8sObject.unstructured { vm with resourceVersion := ex.resourceVersion })).getObj
              ("VirtualMachine", vm.name) =
            some (K8sObject.unstructured { vm with resourceVersion := ex.resourceVersion }) := by
          rw [getObj_eq_head, objsAt_putObj_same _ _ _ (by simp [keyFor, hkind])]
          cases hobjs : objsAt ("VirtualMachine", vm.name) cl with
          | nil => exact absurd hobjs hne
          | cons a tl => simp
        simp [hget]
    | deployment d0 => dsimp only at h; cases h
    | service s0 => dsimp only at h; cases h
    | configMap m0 => dsimp only at h; cases h

theorem reconcileVirtualMachine_noop_cluster (F : Faults) (cl : Cluster) (vm : VirtualMachine)
    (wt : WorkloadType) (cl' : Cluster)
    (h : reconcileVirtualMachine F cl vm wt = .ok (cl', [], [])) : cl' = cl := by
  unfold reconcileVirtualMachine at h
  cases hg : cl.getObj ("VirtualMachine", vm.name) with
  | none =>
    rw [hg] at h
    by_cases hF : (("VirtualMachine", vm.name) : RKey) ∈ F
    · simp [hF] at h
    · simp [hF] at h
  | some obj =>
    rw [hg] at h
    cases obj with
    | unstructured ex =>
      dsimp only at h
      rcases hup : decide (ex.spec ≠ vm.spec) with _ | _
      · rw [hup] at h
        simp only [Bool.false_eq_true, if_false] at h
        cases h
        rfl
      · rw [hup] at h
        by_cases hF : (("VirtualMachine", vm.name) : RKey) ∈ F
        · simp [hF] at h
        · simp [hF] at h
    | deployment d0 => cases h
    | service s0 => cases h
    | configMap m0 => cases h

theorem reconcileVirtualMachine_nofault (F : Faults) (cl : Cluster) (vm : VirtualMachine)
    (wt : WorkloadType) (hF : (("VirtualMachine", vm.name) : RKey) ∉ F) :
    reconcileVirtualMachine F cl vm wt = reconcileVirtualMachine [] cl vm wt := by
  unfold reconcileVirtualMachine
  cases hg : cl.getObj ("VirtualMachine", vm.name) with
  | none => simp [hF]
  | some obj =>
    cases obj with
    | unstructured ex =>
      rcases hup : decide (ex.spec ≠ vm.spec) with _ | _ <;> simp [hup, hF]
    | deployment d0 => rfl
    | service s0 => rfl
    | configMap m0 => rfl

theorem reconcileVirtualMachine_fault_inert (F : Faults) (cl : Cluster) (vm : VirtualMachine)
    (wt : WorkloadType) (hF : (("VirtualMachine", vm.name) : RKey) ∈ F) :
    afterCluster cl (reconcileVirtualMachine F cl vm wt) = cl := by
  unfold reconcileVirtualMachine
  cases hg : cl.getObj ("VirtualMachine", vm.name) with
  | none => simp [hF, afterCluster]
  | some obj =>
    cases obj with
    | unstructured ex =>
      rcases hup : decide (ex.spec ≠ vm.spec) with _ | _ <;> simp [hup, hF, afterCluster]
    | deployment d0 => rfl
    | service s0 => rfl
    | configMap m0 => rfl

theorem reconcileVirtualMachine_record_keys (F : Faults) (cl : Cluster) (vm : VirtualMachine)
    (wt : WorkloadType) (cl' : Cluster) (cs us : List ResourceInfo)
    (h : reconcileVirtualMachine F cl vm wt = .ok (cl', cs, us)) :
    ∀ i ∈ cs ++ us, ((i.rtype, i.name) : RKey) = ("VirtualMachine", vm.name) := by
  unfold reconcileVirtualMachine at h
  cases hg : cl.getObj ("VirtualMachine", vm.name) with
  | none =>
    rw [hg] at h
    by_cases hF : (("VirtualMachine", vm.name) : RKey) ∈ F
    · rw [if_pos ((contains_iff_mem F _).mpr hF)] at h
      cases h
    · rw [if_neg (fun hx => hF ((contains_iff_mem F _).mp hx))] at h
      cases h
      intro i hi
      simp at hi
      subst hi
      rfl
  | some obj =>
    rw [hg] at h
    cases obj with
    | unstructured ex =>
      dsimp only at h
      rcases hup : decide (ex.spec ≠ vm.spec) with _ | _
      · rw [hup] at h
        simp only [Bool.false_eq_true, if_false] at h
        cases h
        intro i hi
        simp at hi
      · rw [hup] at h
        simp only [if_true] at h
        by_cases hF : (("VirtualMachine", vm.name) : RKey) ∈ F
        · rw [if_pos ((contains_iff_mem F _).mpr hF)] at h
          cases h
        · rw [if_neg (fun hx => hF ((contains_iff_mem F _).mp hx))] at h
          cases h
          intro i hi
          simp at hi
          subst hi
          rfl
    | deployment d0 => dsimp only at h; cases h
    | service s0 => dsimp only at h; cases h
    | configMap m0 => dsimp only at h; cases h

theorem reconcileVirtualMachine_fault_mut_error (F : Faults) (cl : Cluster) (vm : VirtualMachine)
    (wt : WorkloadType) (c2 : Cluster) (cs us : List ResourceInfo)
    (h : reconcileVirtualMachine [] cl vm wt = .ok (c2, cs, us))
    (hne : cs ≠ [] ∨ us ≠ [])
    (hF : (("VirtualMachine", vm.name) : RKey) ∈ F) :
    ∃ e, reconcileVirtualMachine F cl vm wt = .error e := by
  unfold reconcileVirtualMachine at h ⊢
  cases hg : cl.getObj ("VirtualMachine", vm.name) with
  | none =>
    rw [hg] at h
    rw [if_pos ((contains_iff_mem F _).mpr hF)]
    exact ⟨_, rfl⟩
  | some obj =>
    rw [hg] at h
    cases obj with
    | unstructured ex =>
      dsimp only at h ⊢
      rcases hup : decide (ex.spec ≠ vm.spec) with _ | _
      · rw [hup] at h
        simp only [Bool.false_eq_true, if_false] at h
        cases h
        simp at hne
      · rw [if_pos rfl, if_pos ((contains_iff_mem F _).mpr hF)]
        exact ⟨_, rfl⟩
    | deployment d0 => dsimp only at h; cases h
    | service s0 => dsimp only at h; cases h
    | configMap m0 => dsimp only at h; cases h

/-! ## Lifted reconcile lemmas (dispatch level) -/

/-- For a well-formed VirtualMachine resource the unstructured object's
kind is the one the dynamic client addresses. -/
theorem wf_vm_kind (res : Resource) (u : VirtualMachine)
    (ho : res.object = K8sObject.unstructured u)
    (ht : res.rtype = "VirtualMachine") (hwf : wfResource res = true) :
    u.kind = "VirtualMachine" := by
  rcases res with ⟨rtype, obj, deps⟩
  dsimp only at ho ht
  subst ho
  subst ht
  simpa [wfResource] using hwf

/-- `reconcileResource` dispatches to exactly one of the four typed
reconcilers, or fails on an unknown tag / mismatched object (in which
case the resource is not well formed). -/
theorem reconcileResource_shape (res : Resource) :
    (∃ d, res.object = K8sObject.deployment d ∧ res.rtype = "Deployment" ∧
      ∀ F cl wt, reconcileResource F cl res wt = reconcileDeployment F cl d wt) ∨
    (∃ s, res.object = K8sObject.service s ∧ res.rtype = "Service" ∧
      ∀ F cl wt, reconcileResource F cl res wt = reconcileService F cl s wt) ∨
    (∃ m, res.object = K8sObject.configMap m ∧ res.rtype = "ConfigMap" ∧
      ∀ F cl wt, reconcileResource F cl res wt = reconcileConfigMap F cl m wt) ∨
    (∃ u, res.object = K8sObject.unstructured u ∧ res.rtype = "VirtualMachine" ∧
      ∀ F cl wt, reconcileResource F cl res wt = reconcileVirtualMachine F cl u wt) ∨
    (wfResource res = false ∧
      ∀ F cl wt, reconcileResource F cl res wt =
        .error ("unsupported resource type: " ++ res.rtype)) := by
  rcases res with ⟨rtype, obj, deps⟩
  cases obj with
  | deployment d =>
    by_cases hr : rtype = "Deployment"
    · subst hr
      exact Or.inl ⟨d, rfl, rfl, fun F cl wt => rfl⟩
    · refine Or.inr (Or.inr (Or.inr (Or.inr ⟨?_, fun F cl wt => ?_⟩)))
      · unfold wfResource
        split
        all_goals
          first
          | rfl
          | (rename_i heq1 heq2
             dsimp only at heq1 heq2
             first
             | exact absurd heq1 hr
             | exact K8sObject.noConfusion heq2)
      · unfold reconcileResource
        split
        all_goals
          first
          | rfl
          | (rename_i heq1 heq2
             dsimp only at heq1 heq2
             first
             | exact absurd heq1 hr
             | exact K8sObject.noConfusion heq2)
  | service s =>
    by_cases hr : rtype = "Service"
    · subst hr
      exact Or.inr (Or.inl ⟨s, rfl, rfl, fun F cl wt => rfl⟩)
    · refine Or.inr (Or.inr (Or.inr (Or.inr ⟨?_, fun F cl wt => ?_⟩)))
      · unfold wfResource
        split
        all_goals
          first
          | rfl
          | (rename_i heq1 heq2
             dsimp only at heq1 heq2
             first
             | exact absurd heq1 hr
             | exact K8sObject.noConfusion heq2)
      · unfold reconcileResource
        split
        all_goals
          first
          | rfl
          | (rename_i heq1 heq2
             dsimp only at heq1 heq2
             first
             | exact absurd heq1 hr
             | exact K8sObject.noConfusion heq2)
  | configMap m =>
    by_cases hr : rtype = "ConfigMap"
    · subst hr
      exact Or.inr (Or.inr (Or.inl ⟨m, rfl, rfl, fun F cl wt => rfl⟩))
    · refine Or.inr (Or.inr (Or.inr (Or.inr ⟨?_, fun F cl wt => ?_⟩)))
      · unfold wfResource
        split
        all_goals
          first
          | rfl
          | (rename_i heq1 heq2
             dsimp only at heq1 heq2
             first
             | exact absurd heq1 hr
             | exact K8sObject.noConfusion heq2)
      · unfold reconcileResource
        split
        all_goals
          first
          | rfl
          | (rename_i heq1 heq2
             dsimp only at heq1 heq2
             first
             | exact absurd heq1 hr
             | exact K8sObject.noConfusion heq2)
  | unstructured u =>
    by_cases hr : rtype = "VirtualMachine"
    · subst hr
      exact Or.inr (Or.inr (Or.inr (Or.inl ⟨u, rfl, rfl, fun F cl wt => rfl⟩)))
    · refine Or.inr (Or.inr (Or.inr (Or.inr ⟨?_, fun F cl wt => ?_⟩)))
      · unfold wfResource
        split
        all_goals
          first
          | rfl
          | (rename_i heq1 heq2
             dsimp only at heq1 heq2
             first
             | exact absurd heq1 hr
             | exact K8sObject.noConfusion heq2)
      · unfold reconcileResource
        split
        all_goals
          first
          | rfl
          | (rename_i heq1 heq2
             dsimp only at heq1 heq2
             first
             | exact absurd heq1 hr
             | exact K8sObject.noConfusion heq2)


theorem reconcileResource_objsAt_other (F : Faults) (cl : Cluster) (res : Resource)
    (wt : WorkloadType) (k : RKey) (hk : k ≠ getResourceKey res)
    (hwf : wfResource res = true) :
    objsAt k (afterCluster cl (reconcileResource F cl res wt)) = objsAt k cl := by
  rcases reconcileResource_shape res with
    ⟨d, ho, ht, hfn⟩ | ⟨s, ho, ht, hfn⟩ | ⟨m, ho, ht, hfn⟩ | ⟨u, ho, ht, hfn⟩ | ⟨hwff, hfn⟩
  · rw [hfn]
    exact reconcileDeployment_objsAt_other F cl d wt k
      (by simpa [getResourceKey, ho, keyFor] using hk)
  · rw [hfn]
    exact reconcileService_objsAt_other F cl s wt k
      (by simpa [getResourceKey, ho, keyFor] using hk)
  · rw [hfn]
    exact reconcileConfigMap_objsAt_other F cl m wt k
      (by simpa [getResourceKey, ho, keyFor] using hk)
  · rw [hfn]
    have hkind := wf_vm_kind res u ho ht hwf
    exact reconcileVirtualMachine_objsAt_other F cl u wt k
      (by simpa [getResourceKey, ho, keyFor, hkind] using hk) hkind
  · rw [hwf] at hwff
    cases hwff

theorem reconcileResource_det (F : Faults) (cl₁ cl₂ : Cluster) (res : Resource)
    (wt : WorkloadType) (hwf : wfResource res = true)
    (h : objsAt (getResourceKey res) cl₁ = objsAt (getResourceKey res) cl₂) :
    deltasOf (reconcileResource F cl₁ res wt) = deltasOf (reconcileResource F cl₂ res wt) ∧
    objsAt (getResourceKey res) (afterCluster cl₁ (reconcileResource F cl₁ res wt)) =
      objsAt (getResourceKey res) (afterCluster cl₂ (reconcileResource F cl₂ res wt)) := by
  rcases reconcileResource_shape res with
    ⟨d, ho, ht, hfn⟩ | ⟨s, ho, ht, hfn⟩ | ⟨m, ho, ht, hfn⟩ | ⟨u, ho, ht, hfn⟩ | ⟨hwff, hfn⟩
  · rw [hfn, hfn]
    have hkey : getResourceKey res = ("Deployment", d.name) := by
      simp [getResourceKey, ho, keyFor]
    rw [hkey] at h ⊢
    exact reconcileDeployment_det F cl₁ cl₂ d wt h
  · rw [hfn, hfn]
    have hkey : getResourceKey res = ("Service", s.name) := by
      simp [getResourceKey, ho, keyFor]
    rw [hkey] at h ⊢
    exact reconcileService_det F cl₁ cl₂ s wt h
  · rw [hfn, hfn]
    have hkey : getResourceKey res = ("ConfigMap", m.name) := by
      simp [getResourceKey, ho, keyFor]
    rw [hkey] at h ⊢
    exact reconcileConfigMap_det F cl₁ cl₂ m wt h
  · rw [hfn, hfn]
    have hkind := wf_vm_kind res u ho ht hwf
    have hkey : getResourceKey res = ("VirtualMachine", u.name) := by
      simp [getResourceKey, ho, keyFor, hkind]
    rw [hkey] at h ⊢
    exact reconcileVirtualMachine_det F cl₁ cl₂ u wt hkind h
  · rw [hwf] at hwff
    cases hwff

theorem reconcileResource_settled (F' : Faults) (cl cl' : Cluster) (res : Resource)
    (wt : WorkloadType) (cs us : List ResourceInfo) (hwf : wfResource res = true)
    (h : reconcileResource [] cl res wt = .ok (cl', cs, us)) :
    reconcileResource F' cl' res wt = .ok (cl', [], []) := by
  rcases reconcileResource_shape res with
    ⟨d, ho, ht, hfn⟩ | ⟨s, ho, ht, hfn⟩ | ⟨m, ho, ht, hfn⟩ | ⟨u, ho, ht, hfn⟩ | ⟨hwff, hfn⟩
  · rw [hfn] at h ⊢
    exact reconcileDeployment_settled F' cl cl' d wt cs us h
  · rw [hfn] at h ⊢
    exact reconcileService_settled F' cl cl' s wt cs us h
  · rw [hfn] at h ⊢
    exact reconcileConfigMap_settled F' cl cl' m wt cs us h
  · rw [hfn] at h ⊢
    exact reconcileVirtualMachine_settled F' cl cl' u wt cs us
      (wf_vm_kind res u ho ht hwf) h
  · rw [hwf] at hwff
    cases hwff

theorem reconcileResource_noop_cluster (F : Faults) (cl : Cluster) (res : Resource)
    (wt : WorkloadType) (cl' : Cluster)
    (h : reconcileResource F cl res wt = .ok (cl', [], [])) : cl' = cl := by
  rcases reconcileResource_shape res with
    ⟨d, ho, ht, hfn⟩ | ⟨s, ho, ht, hfn⟩ | ⟨m, ho, ht, hfn⟩ | ⟨u, ho, ht, hfn⟩ | ⟨hwff, hfn⟩
  · rw [hfn] at h
    exact reconcileDeployment_noop_cluster F cl d wt cl' h
  · rw [hfn] at h
    exact reconcileService_noop_cluster F cl s wt cl' h
  · rw [hfn] at h
    exact reconcileConfigMap_noop_cluster F cl m wt cl' h
  · rw [hfn] at h
    exact reconcileVirtualMachine_noop_cluster F cl u wt cl' h
  · rw [hfn] at h
    cases h

theorem reconcileResource_nofault (F : Faults) (cl : Cluster) (res : Resource)
    (wt : WorkloadType) (hwf : wfResource res = true)
    (hF : getResourceKey res ∉ F) :
    reconcileResource F cl res wt = reconcileResource [] cl res wt := by
  rcases reconcileResource_shape res with
    ⟨d, ho, ht, hfn⟩ | ⟨s, ho, ht, hfn⟩ | ⟨m, ho, ht, hfn⟩ | ⟨u, ho, ht, hfn⟩ | ⟨hwff, hfn⟩
  · rw [hfn, hfn]
    exact reconcileDeployment_nofault F cl d wt
      (by simpa [getResourceKey, ho, keyFor] using hF)
  · rw [hfn, hfn]
    exact reconcileService_nofault F cl s wt
      (by simpa [getResourceKey, ho, keyFor] using hF)
  · rw [hfn, hfn]
    exact reconcileConfigMap_nofault F cl m wt
      (by simpa [getResourceKey, ho, keyFor] using hF)
  · rw [hfn, hfn]
    have hkind := wf_vm_kind res u ho ht hwf
    exact reconcileVirtualMachine_nofault F cl u wt
      (by simpa [getResourceKey, ho, keyFor, hkind] using hF)
  · rw [hwf] at hwff
    cases hwff

theorem reconcileResource_fault_inert (F : Faults) (cl : Cluster) (res : Resource)
    (wt : WorkloadType) (hwf : wfResource res = true)
    (hF : getResourceKey res ∈ F) :
    afterCluster cl (reconcileResource F cl res wt) = cl := by
  rcases reconcileResource_shape res with
    ⟨d, ho, ht, hfn⟩ | ⟨s, ho, ht, hfn⟩ | ⟨m, ho, ht, hfn⟩ | ⟨u, ho, ht, hfn⟩ | ⟨hwff, hfn⟩
  · rw [hfn]
    exact reconcileDeployment_fault_inert F cl d wt
      (by simpa [getResourceKey, ho, keyFor] using hF)
  · rw [hfn]
    exact reconcileService_fault_inert F cl s wt
      (by simpa [getResourceKey, ho, keyFor] using hF)
  · rw [hfn]
    exact reconcileConfigMap_fault_inert F cl m wt
      (by simpa [getResourceKey, ho, keyFor] using hF)
  · rw [hfn]
    have hkind := wf_vm_kind res u ho ht hwf
    exact reconcileVirtualMachine_fault_inert F cl u wt
      (by simpa [getResourceKey, ho, keyFor, hkind] using hF)
  · rw [hwf] at hwff
    cases hwff

theorem reconcileResource_record_keys (F : Faults) (cl : Cluster) (res : Resource)
    (wt : WorkloadType) (cl' : Cluster) (cs us : List ResourceInfo)
    (hwf : wfResource res = true)
    (h : reconcileResource F cl res wt = .ok (cl', cs, us)) :
    ∀ i ∈ cs ++ us, ((i.rtype, i.name) : RKey) = getResourceKey res := by
  rcases reconcileResource_shape res with
    ⟨d, ho, ht, hfn⟩ | ⟨s, ho, ht, hfn⟩ | ⟨m, ho, ht, hfn⟩ | ⟨u, ho, ht, hfn⟩ | ⟨hwff, hfn⟩
  · rw [hfn] at h
    have hkey : getResourceKey res = ("Deployment", d.name) := by
      simp [getResourceKey, ho, keyFor]
    rw [hkey]
    exact reconcileDeployment_record_keys F cl d wt cl' cs us h
  · rw [hfn] at h
    have hkey : getResourceKey res = ("Service", s.name) := by
      simp [getResourceKey, ho, keyFor]
    rw [hkey]
    exact reconcileService_record_keys F cl s wt cl' cs us h
  · rw [hfn] at h
    have hkey : getResourceKey res = ("ConfigMap", m.name) := by
      simp [getResourceKey, ho, keyFor]
    rw [hkey]
    exact reconcileConfigMap_record_keys F cl m wt cl' cs us h
  · rw [hfn] at h
    have hkind := wf_vm_kind res u ho ht hwf
    have hkey : getResourceKey res = ("VirtualMachine", u.name) := by
      simp [getResourceKey, ho, keyFor, hkind]
    rw [hkey]
    exact reconcileVirtualMachine_record_keys F cl u wt cl' cs us h
  · rw [hwf] at hwff
    cases hwff

theorem reconcileResource_fault_mut_error (F : Faults) (cl : Cluster) (res : Resource)
    (wt : WorkloadType) (c2 : Cluster) (cs us : List ResourceInfo)
    (hwf : wfResource res = true)
    (h : reconcileResource [] cl res wt = .ok (c2, cs, us))
    (hne : cs ≠ [] ∨ us ≠ [])
    (hF : getResourceKey res ∈ F) :
    ∃ e, reconcileResource F cl res wt = .error e := by
  rcases reconcileResource_shape res with
    ⟨d, ho, ht, hfn⟩ | ⟨s, ho, ht, hfn⟩ | ⟨m, ho, ht, hfn⟩ | ⟨u, ho, ht, hfn⟩ | ⟨hwff, hfn⟩
  · rw [hfn] at h ⊢
    exact reconcileDeployment_fault_mut_error F cl d wt c2 cs us h hne
      (by simpa [getResourceKey, ho, keyFor] using hF)
  · rw [hfn] at h ⊢
    exact reconcileService_fault_mut_error F cl s wt c2 cs us h hne
      (by simpa [getResourceKey, ho, keyFor] using hF)
  · rw [hfn] at h ⊢
    exact reconcileConfigMap_fault_mut_error F cl m wt c2 cs us h hne
      (by simpa [getResourceKey, ho, keyFor] using hF)
  · rw [hfn] at h ⊢
    have hkind := wf_vm_kind res u ho ht hwf
    exact reconcileVirtualMachine_fault_mut_error F cl u wt c2 cs us h hne
      (by simpa [getResourceKey, ho, keyFor, hkind] using hF)
  · rw [hwf] at hwff
    cases hwff


/-! ## Batch lemmas over the reconcile loop -/

theorem reconcileStep_fields (F : Faults) (st : RState) (it : WorkItem) :
    (reconcileStep F st it).cluster =
      afterCluster st.cluster (reconcileResource F st.cluster it.resource it.wt) ∧
    (reconcileStep F st it).created =
      st.created ++ createdDelta (reconcileResource F st.cluster it.resource it.wt) ∧
    (reconcileStep F st it).updated =
      st.updated ++ updatedDelta (reconcileResource F st.cluster it.resource it.wt) ∧
    (reconcileStep F st it).deleted = st.deleted ∧
    (reconcileStep F st it).errors =
      st.errors ++ errDelta it (reconcileResource F st.cluster it.resource it.wt) := by
  cases h : reconcileResource F st.cluster it.resource it.wt with
  | ok out =>
    obtain ⟨cl, cs, us⟩ := out
    simp [reconcileStep, h, afterCluster, createdDelta, updatedDelta, errDelta]
  | error e =>
    simp [reconcileStep, h, afterCluster, createdDelta, updatedDelta, errDelta]

theorem processItems_deleted (F : Faults) (st : RState) (items : List WorkItem) :
    (processItems F st items).deleted = st.deleted := by
  induction items generalizing st with
  | nil => rfl
  | cons it rest ih =>
    rw [processItems, List.foldl_cons, ← processItems, ih]
    exact (reconcileStep_fields F st it).2.2.2.1

theorem processItems_errors_mono (F : Faults) (st : RState) (items : List WorkItem) :
    ∃ tl, (processItems F st items).errors = st.errors ++ tl := by
  induction items generalizing st with
  | nil => exact ⟨[], by simp [processItems]⟩
  | cons it rest ih =>
    rw [processItems, List.foldl_cons, ← processItems]
    obtain ⟨tl, htl⟩ := ih (reconcileStep F st it)
    rw [htl, (reconcileStep_fields F st it).2.2.2.2]
    exact ⟨_, (List.append_assoc _ _ _)⟩

theorem processItems_objsAt_frame (F : Faults) (st : RState) (items : List WorkItem)
    (k : RKey) (hwf : ∀ it ∈ items, wfResource it.resource = true)
    (hne : ∀ it ∈ items, getResourceKey it.resource ≠ k) :
    objsAt k (processItems F st items).cluster = objsAt k st.cluster := by
  induction items generalizing st with
  | nil => rfl
  | cons it rest ih =>
    rw [processItems, List.foldl_cons, ← processItems]
    rw [ih (reconcileStep F st it) (fun j hj => hwf j (List.mem_cons_of_mem _ hj))
      (fun j hj => hne j (List.mem_cons_of_mem _ hj))]
    rw [(reconcileStep_fields F st it).1]
    exact reconcileResource_objsAt_other F st.cluster it.resource it.wt k
      (fun hx => hne it (List.mem_cons_self _ _) hx.symm)
      (hwf it (List.mem_cons_self _ _))

theorem noopOrError_transfer (cl₁ cl₂ : Cluster) (it : WorkItem)
    (hwf : wfResource it.resource = true)
    (hobjs : objsAt (getResourceKey it.resource) cl₁ =
      objsAt (getResourceKey it.resource) cl₂)
    (h : noopOrError cl₁ it) : noopOrError cl₂ it := by
  cases hr : reconcileResource [] cl₂ it.resource it.wt with
  | error e => exact Or.inr ⟨e, hr⟩
  | ok out =>
    obtain ⟨c2, cs, us⟩ := out
    obtain ⟨hdel, -⟩ := reconcileResource_det [] cl₁ cl₂ it.resource it.wt hwf hobjs
    rcases h with h | ⟨e, h⟩
    · rw [h, hr] at hdel
      simp [deltasOf, Except.map] at hdel
      obtain ⟨hcs, hus⟩ := hdel
      subst hcs
      subst hus
      have hc2 := reconcileResource_noop_cluster [] cl₂ it.resource it.wt c2 hr
      subst hc2
      exact Or.inl hr
    · rw [h, hr] at hdel
      simp [deltasOf, Except.map] at hdel

theorem mutationNeeded_transfer (cl₁ cl₂ : Cluster) (it : WorkItem)
    (hwf : wfResource it.resource = true)
    (hobjs : objsAt (getResourceKey it.resource) cl₁ =
      objsAt (getResourceKey it.resource) cl₂) :
    mutationNeeded cl₁ it = mutationNeeded cl₂ it := by
  obtain ⟨hdel, -⟩ := reconcileResource_det [] cl₁ cl₂ it.resource it.wt hwf hobjs
  unfold mutationNeeded
  cases h1 : reconcileResource [] cl₁ it.resource it.wt with
  | ok out1 =>
    obtain ⟨c1, cs1, us1⟩ := out1
    cases h2 : reconcileResource [] cl₂ it.resource it.wt with
    | ok out2 =>
      obtain ⟨c2, cs2, us2⟩ := out2
      rw [h1, h2] at hdel
      simp [deltasOf, Except.map] at hdel
      obtain ⟨hcs, hus⟩ := hdel
      rw [hcs, hus]
    | error e =>
      rw [h1, h2] at hdel
      simp [deltasOf, Except.map] at hdel
  | error e =>
    cases h2 : reconcileResource [] cl₂ it.resource it.wt with
    | ok out2 =>
      rw [h1, h2] at hdel
      simp [deltasOf, Except.map] at hdel
    | error e2 => rfl


theorem processItems_establishes (st : RState) (items : List WorkItem)
    (hwf : ∀ it ∈ items, wfResource it.resource = true)
    (hnd : (items.map (fun it => getResourceKey it.resource)).Nodup) :
    ∀ it ∈ items, noopOrError (processItems [] st items).cluster it := by
  induction items generalizing st with
  | nil => intro it h; cases h
  | cons hd rest ih =>
    have hwfhd := hwf hd (List.mem_cons_self _ _)
    have hwfrest : ∀ it ∈ rest, wfResource it.resource = true :=
      fun j hj => hwf j (List.mem_cons_of_mem _ hj)
    rw [List.map_cons, List.nodup_cons] at hnd
    obtain ⟨hkey, hndrest⟩ := hnd
    have hkeys : ∀ j ∈ rest, getResourceKey j.resource ≠ getResourceKey hd.resource := by
      intro j hj hx
      exact hkey (hx ▸ List.mem_map_of_mem _ hj)
    intro it hit
    rw [processItems, List.foldl_cons, ← processItems]
    rcases List.mem_cons.mp hit with rfl | hit'
    · have hfr := processItems_objsAt_frame [] (reconcileStep [] st it) rest
        (getResourceKey it.resource) hwfrest hkeys
      have hcl := (reconcileStep_fields [] st it).1
      cases hr : reconcileResource [] st.cluster it.resource it.wt with
      | ok out =>
        obtain ⟨c2, cs, us⟩ := out
        have hsettled :=
          reconcileResource_settled [] st.cluster c2 it.resource it.wt cs us hwfhd hr
        have hcl2 : (reconcileStep [] st it).cluster = c2 := by
          rw [hcl, hr]
          rfl
        refine noopOrError_transfer c2 _ it hwfhd ?_ (Or.inl hsettled)
        rw [hfr, hcl2]
      | error e =>
        have hcl2 : (reconcileStep [] st it).cluster = st.cluster := by
          rw [hcl, hr]
          rfl
        refine noopOrError_transfer st.cluster _ it hwfhd ?_ (Or.inr ⟨e, hr⟩)
        rw [hfr, hcl2]
    · exact ih (reconcileStep [] st hd) hwfrest hndrest it hit'

theorem processItems_noop (st : RState) (items : List WorkItem)
    (h : ∀ it ∈ items, noopOrError st.cluster it) :
    (processItems [] st items).cluster = st.cluster ∧
    (processItems [] st items).created = st.created ∧
    (processItems [] st items).updated = st.updated := by
  induction items generalizing st with
  | nil => exact ⟨rfl, rfl, rfl⟩
  | cons hd rest ih =>
    rw [processItems, List.foldl_cons, ← processItems]
    obtain ⟨hc, hcr, hup, -, -⟩ := reconcileStep_fields [] st hd
    have hstep : (reconcileStep [] st hd).cluster = st.cluster ∧
        (reconcileStep [] st hd).created = st.created ∧
        (reconcileStep [] st hd).updated = st.updated := by
      rcases h hd (List.mem_cons_self _ _) with hok | ⟨e, he⟩
      · rw [hok] at hc hcr hup
        exact ⟨by rw [hc]; rfl, by rw [hcr]; simp [createdDelta],
          by rw [hup]; simp [updatedDelta]⟩
      · rw [he] at hc hcr hup
        exact ⟨by rw [hc]; rfl, by rw [hcr]; simp [createdDelta],
          by rw [hup]; simp [updatedDelta]⟩
    obtain ⟨hs1, hs2, hs3⟩ := hstep
    have hrest : ∀ it ∈ rest, noopOrError (reconcileStep [] st hd).cluster it := by
      rw [hs1]
      exact fun j hj => h j (List.mem_cons_of_mem _ hj)
    obtain ⟨r1, r2, r3⟩ := ih (reconcileStep [] st hd) hrest
    exact ⟨by rw [r1, hs1], by rw [r2, hs2], by rw [r3, hs3]⟩


/-! ## Deletion-phase lemmas -/

theorem deleteUnwanted_skip_all (F : Faults) (desired : List RKey) (st : RState)
    (entries : List (RKey × K8sObject))
    (h : ∀ p ∈ entries, p.1 ∈ desired) :
    deleteUnwanted F desired st entries = st := by
  induction entries generalizing st with
  | nil => rfl
  | cons hd rest ih =>
    rw [deleteUnwanted]
    rw [if_pos ((contains_iff_mem desired hd.1).mpr (h hd (List.mem_cons_self _ _)))]
    exact ih st (fun p hp => h p (List.mem_cons_of_mem _ hp))

theorem deleteUnwanted_fields (F : Faults) (desired : List RKey) (st : RState)
    (entries : List (RKey × K8sObject))
    (hF : ∀ p ∈ entries, p.1 ∉ F) :
    (deleteUnwanted F desired st entries).deleted =
      st.deleted ++ (entries.filter (fun p => !(desired.contains p.1))).map
        (fun p => ⟨p.1.1, p.1.2, "", ""⟩) ∧
    (deleteUnwanted F desired st entries).errors = st.errors ∧
    (deleteUnwanted F desired st entries).created = st.created ∧
    (deleteUnwanted F desired st entries).updated = st.updated := by
  induction entries generalizing st with
  | nil => simp [deleteUnwanted]
  | cons hd rest ih =>
    obtain ⟨k, o⟩ := hd
    have hFk : k ∉ F := hF (k, o) (List.mem_cons_self _ _)
    have hFrest : ∀ p ∈ rest, p.1 ∉ F := fun p hp => hF p (List.mem_cons_of_mem _ hp)
    rw [deleteUnwanted]
    by_cases hk : desired.contains k
    · rw [if_pos hk]
      obtain ⟨h1, h2, h3, h4⟩ := ih st hFrest
      refine ⟨?_, h2, h3, h4⟩
      rw [h1]
      have hkm : k ∈ desired := (contains_iff_mem desired k).mp hk
      simp [List.filter, hkm]
    · rw [if_neg hk]
      have hdel : deleteResource F st.cluster k =
          .ok (if k.1 = "Deployment" ∨ k.1 = "Service" ∨ k.1 = "ConfigMap"
            then st.cluster.delObj k else st.cluster, ⟨k.1, k.2, "", ""⟩) := by
        unfold deleteResource
        by_cases hkind : k.1 = "Deployment" ∨ k.1 = "Service" ∨ k.1 = "ConfigMap"
        · rw [if_pos hkind, if_pos hkind,
            if_neg (fun hx => hFk ((contains_iff_mem F k).mp hx))]
        · rw [if_neg hkind, if_neg hkind]
      rw [hdel]
      set st2 : RState := { st with
        cluster := if k.1 = "Deployment" ∨ k.1 = "Service" ∨ k.1 = "ConfigMap"
          then st.cluster.delObj k else st.cluster,
        deleted := st.deleted ++ [⟨k.1, k.2, "", ""⟩] } with hst2
      obtain ⟨h1, h2, h3, h4⟩ := ih st2 hFrest
      refine ⟨?_, h2, h3, h4⟩
      rw [h1]
      have : (List.filter (fun p => !desired.contains p.1) ((k, o) :: rest)) =
          (k, o) :: List.filter (fun p => !desired.contains p.1) rest := by
        have hkm : k ∉ desired := fun hm => hk ((contains_iff_mem desired k).mpr hm)
        simp [List.filter, hkm]
      rw [this]
      simp [hst2]

theorem deleteUnwanted_cluster_subset (F : Faults) (desired : List RKey)
    (entries : List (RKey × K8sObject)) (st : RState) (o : K8sObject)
    (h : o ∈ (deleteUnwanted F desired st entries).cluster) : o ∈ st.cluster := by
  induction entries generalizing st with
  | nil => exact h
  | cons hd rest ih =>
    rw [deleteUnwanted] at h
    by_cases hk : desired.contains hd.1
    · rw [if_pos hk] at h
      exact ih st h
    · rw [if_neg hk] at h
      cases hdr : deleteResource F st.cluster hd.1 with
      | ok out =>
        rw [hdr] at h
        have hmem := ih _ h
        have hsub : ∀ x, x ∈ out.1 → x ∈ st.cluster := by
          intro x hx
          unfold deleteResource at hdr
          by_cases hkind : hd.1.1 = "Deployment" ∨ hd.1.1 = "Service" ∨ hd.1.1 = "ConfigMap"
          · rw [if_pos hkind] at hdr
            by_cases hFk : F.contains hd.1
            · rw [if_pos hFk] at hdr
              cases hdr
            · rw [if_neg hFk] at hdr
              cases hdr
              exact mem_delObj _ _ _ hx
          · rw [if_neg hkind] at hdr
            cases hdr
            exact hx
        exact hsub o hmem
      | error e =>
        rw [hdr] at h
        exact h

theorem deleteUnwanted_objsAt_nil (F : Faults) (desired : List RKey)
    (entries : List (RKey × K8sObject)) (st : RState) (k : RKey)
    (h : objsAt k st.cluster = []) :
    objsAt k (deleteUnwanted F desired st entries).cluster = [] := by
  rw [List.eq_nil_iff_forall_not_mem]
  intro o ho
  obtain ⟨hmem, hkey⟩ := (mem_objsAt _ _ _).mp ho
  have := deleteUnwanted_cluster_subset F desired entries st o hmem
  have : o ∈ objsAt k st.cluster := (mem_objsAt _ _ _).mpr ⟨this, hkey⟩
  rw [h] at this
  cases this

theorem deleteUnwanted_objsAt_desired (F : Faults) (desired : List RKey)
    (entries : List (RKey × K8sObject)) (st : RState) (k : RKey)
    (hk : k ∈ desired) :
    objsAt k (deleteUnwanted F desired st entries).cluster = objsAt k st.cluster := by
  induction entries generalizing st with
  | nil => rfl
  | cons hd rest ih =>
    rw [deleteUnwanted]
    by_cases hd1 : desired.contains hd.1
    · rw [if_pos hd1]
      exact ih st
    · rw [if_neg hd1]
      have hne : k ≠ hd.1 := by
        intro hx
        exact hd1 ((contains_iff_mem desired hd.1).mpr (hx ▸ hk))
      cases hdr : deleteResource F st.cluster hd.1 with
      | ok out =>
        have hcl : objsAt k out.1 = objsAt k st.cluster := by
          unfold deleteResource at hdr
          by_cases hkind : hd.1.1 = "Deployment" ∨ hd.1.1 = "Service" ∨ hd.1.1 = "ConfigMap"
          · rw [if_pos hkind] at hdr
            by_cases hFk : F.contains hd.1
            · rw [if_pos hFk] at hdr
              cases hdr
            · rw [if_neg hFk] at hdr
              cases hdr
              exact objsAt_delObj_other _ _ _ hne
          · rw [if_neg hkind] at hdr
            cases hdr
            rfl
        rw [ih _]
        exact hcl
      | error e => rfl

theorem deleteUnwanted_kills (F : Faults) (desired : List RKey)
    (entries : List (RKey × K8sObject)) (st : RState) (k : RKey) (o0 : K8sObject)
    (hkd : k ∉ desired)
    (hkind : k.1 = "Deployment" ∨ k.1 = "Service" ∨ k.1 = "ConfigMap")
    (hF : ∀ p ∈ entries, p.1 ∉ F)
    (hmem : (k, o0) ∈ entries) :
    objsAt k (deleteUnwanted F desired st entries).cluster = [] := by
  induction entries generalizing st with
  | nil => cases hmem
  | cons hd rest ih =>
    rw [deleteUnwanted]
    by_cases heq : hd.1 = k
    · rw [if_neg (fun hx => hkd (heq ▸ (contains_iff_mem desired hd.1).mp hx))]
      have hFk : hd.1 ∉ F := hF hd (List.mem_cons_self _ _)
      have hdr : deleteResource F st.cluster hd.1 =
          .ok (st.cluster.delObj hd.1, ⟨hd.1.1, hd.1.2, "", ""⟩) := by
        unfold deleteResource
        rw [if_pos (heq ▸ hkind), if_neg (fun hx => hFk ((contains_iff_mem F hd.1).mp hx))]
      rw [hdr]
      apply deleteUnwanted_objsAt_nil
      show objsAt k (st.cluster.delObj hd.1) = []
      rw [heq]
      exact objsAt_delObj_same _ _
    · have hmem' : (k, o0) ∈ rest := by
        rcases List.mem_cons.mp hmem with hx | hx
        · exact absurd (congrArg Prod.fst hx).symm heq
        · exact hx
      have hFrest : ∀ p ∈ rest, p.1 ∉ F := fun p hp => hF p (List.mem_cons_of_mem _ hp)
      by_cases hd1 : desired.contains hd.1
      · rw [if_pos hd1]
        exact ih st hFrest hmem'
      · rw [if_neg hd1]
        cases hdr : deleteResource F st.cluster hd.1 with
        | ok out =>
          exact ih _ hFrest hmem'
        | error e =>
          exfalso
          have hFk : hd.1 ∉ F := hF hd (List.mem_cons_self _ _)
          unfold deleteResource at hdr
          by_cases hkind2 : hd.1.1 = "Deployment" ∨ hd.1.1 = "Service" ∨ hd.1.1 = "ConfigMap"
          · rw [if_pos hkind2,
              if_neg (fun hx => hFk ((contains_iff_mem F hd.1).mp hx))] at hdr
            cases hdr
          · rw [if_neg hkind2] at hdr
            cases hdr
        

/-! ## Snapshot lemmas -/

theorem mem_insertKV (m : List (RKey × K8sObject)) (k : RKey) (o : K8sObject)
    (p : RKey × K8sObject) (h : p ∈ insertKV m k o) : p ∈ m ∨ p = (k, o) := by
  unfold insertKV at h
  by_cases hc : m.any (fun q => q.1 == k)
  · rw [if_pos hc] at h
    obtain ⟨q, hq, hfq⟩ := List.mem_map.mp h
    by_cases hqk : q.1 == k
    · rw [if_pos hqk] at hfq
      exact Or.inr hfq.symm
    · rw [if_neg hqk] at hfq
      exact Or.inl (hfq ▸ hq)
  · rw [if_neg hc] at h
    rcases List.mem_append.mp h with hx | hx
    · exact Or.inl hx
    · exact Or.inr (List.mem_singleton.mp hx)

theorem mem_foldl_insertKV (l : List (RKey × K8sObject))
    (acc : List (RKey × K8sObject)) (p : RKey × K8sObject)
    (h : p ∈ l.foldl (fun a q => insertKV a q.1 q.2) acc) : p ∈ acc ∨ p ∈ l := by
  induction l generalizing acc with
  | nil => exact Or.inl h
  | cons q rest ih =>
    rw [List.foldl_cons] at h
    rcases ih (insertKV acc q.1 q.2) h with hx | hx
    · rcases mem_insertKV acc q.1 q.2 p hx with hy | hy
      · exact Or.inl hy
      · exact Or.inr (hy ▸ List.mem_cons_self _ _)
    · exact Or.inr (List.mem_cons_of_mem _ hx)

theorem key_mem_insertKV_of_mem (m : List (RKey × K8sObject)) (k k2 : RKey)
    (o2 : K8sObject) (h : ∃ v, (k, v) ∈ m) : ∃ v, (k, v) ∈ insertKV m k2 o2 := by
  obtain ⟨v, hv⟩ := h
  unfold insertKV
  by_cases hc : m.any (fun q => q.1 == k2)
  · rw [if_pos hc]
    by_cases hk : k = k2
    · subst hk
      refine ⟨o2, List.mem_map.mpr ⟨(k, v), hv, ?_⟩⟩
      simp
    · refine ⟨v, List.mem_map.mpr ⟨(k, v), hv, ?_⟩⟩
      have : ¬((k, v).1 == k2) := by
        simp [hk]
      rw [if_neg this]
  · rw [if_neg hc]
    exact ⟨v, List.mem_append.mpr (Or.inl hv)⟩

theorem key_mem_insertKV_self (m : List (RKey × K8sObject)) (k : RKey)
    (o : K8sObject) : ∃ v, (k, v) ∈ insertKV m k o := by
  unfold insertKV
  by_cases hc : m.any (fun q => q.1 == k)
  · rw [if_pos hc]
    obtain ⟨q, hq, hqk⟩ := List.any_eq_true.mp hc
    refine ⟨o, List.mem_map.mpr ⟨q, hq, ?_⟩⟩
    rw [if_pos hqk]
  · rw [if_neg hc]
    exact ⟨o, List.mem_append.mpr (Or.inr (List.mem_singleton.mpr rfl))⟩

theorem key_mem_foldl_insertKV (l : List (RKey × K8sObject))
    (acc : List (RKey × K8sObject)) (k : RKey)
    (h : (∃ v, (k, v) ∈ acc) ∨ (∃ v, (k, v) ∈ l)) :
    ∃ v, (k, v) ∈ l.foldl (fun a q => insertKV a q.1 q.2) acc := by
  induction l generalizing acc with
  | nil =>
    rcases h with hx | ⟨v, hv⟩
    · exact hx
    · cases hv
  | cons q rest ih =>
    rw [List.foldl_cons]
    rcases h with hx | ⟨v, hv⟩
    · exact ih _ (Or.inl (key_mem_insertKV_of_mem acc k q.1 q.2 hx))
    · rcases List.mem_cons.mp hv with hy | hy
      · refine ih _ (Or.inl ?_)
        have : q = (k, v) := hy.symm
        rw [this]
        exact key_mem_insertKV_self acc k v
      · exact ih _ (Or.inr ⟨v, hy⟩)

theorem getExisting_sound (topology : Topology) (cl : Cluster)
    (p : RKey × K8sObject) (h : p ∈ getExistingResources topology cl) :
    p.2 ∈ cl ∧ keyFor p.2 = p.1 ∧ listedObj topology p.2 = true ∧
      (p.1.1 = "Deployment" ∨ p.1.1 = "Service" ∨ p.1.1 = "ConfigMap") := by
  unfold getExistingResources at h
  rcases mem_foldl_insertKV _ [] p h with hx | hx
  · cases hx
  · rcases List.mem_append.mp hx with hy | hy
    · rcases List.mem_append.mp hy with hz | hz
      · obtain ⟨a, ha, hfa⟩ := List.mem_filterMap.mp hz
        cases a with
        | deployment d =>
          dsimp only at hfa
          by_cases hl : hasTopologyLabel topology d.labels
          · rw [if_pos hl] at hfa
            cases hfa
            exact ⟨ha, rfl, by simpa [listedObj] using hl, Or.inl rfl⟩
          · rw [if_neg hl] at hfa
            cases hfa
        | service s => cases hfa
        | configMap m => cases hfa
        | unstructured u => cases hfa
      · obtain ⟨a, ha, hfa⟩ := List.mem_filterMap.mp hz
        cases a with
        | service s =>
          dsimp only at hfa
          by_cases hl : hasTopologyLabel topology s.labels
          · rw [if_pos hl] at hfa
            cases hfa
            exact ⟨ha, rfl, by simpa [listedObj] using hl, Or.inr (Or.inl rfl)⟩
          · rw [if_neg hl] at hfa
            cases hfa
        | deployment d => cases hfa
        | configMap m => cases hfa
        | unstructured u => cases hfa
    · obtain ⟨a, ha, hfa⟩ := List.mem_filterMap.mp hy
      cases a with
      | configMap m =>
        dsimp only at hfa
        by_cases hl : hasTopologyLabel topology m.labels
        · rw [if_pos hl] at hfa
          cases hfa
          exact ⟨ha, rfl, by simpa [listedObj] using hl, Or.inr (Or.inr rfl)⟩
        · rw [if_neg hl] at hfa
          cases hfa
      | deployment d => cases hfa
      | service s => cases hfa
      | unstructured u => cases hfa

theorem getExisting_complete (topology : Topology) (cl : Cluster) (o : K8sObject)
    (ho : o ∈ cl) (hl : listedObj topology o = true) :
    ∃ o2, (keyFor o, o2) ∈ getExistingResources topology cl := by
  unfold getExistingResources
  apply key_mem_foldl_insertKV
  refine Or.inr ?_
  cases o with
  | deployment d =>
    refine ⟨K8sObject.deployment d, List.mem_append.mpr (Or.inl (List.mem_append.mpr
      (Or.inl (List.mem_filterMap.mpr ⟨K8sObject.deployment d, ho, ?_⟩))))⟩
    dsimp only
    rw [if_pos (by simpa [listedObj] using hl)]
    rfl
  | service s =>
    refine ⟨K8sObject.service s, List.mem_append.mpr (Or.inl (List.mem_append.mpr
      (Or.inr (List.mem_filterMap.mpr ⟨K8sObject.service s, ho, ?_⟩))))⟩
    dsimp only
    rw [if_pos (by simpa [listedObj] using hl)]
    rfl
  | configMap m =>
    refine ⟨K8sObject.configMap m, List.mem_append.mpr (Or.inr
      (List.mem_filterMap.mpr ⟨K8sObject.configMap m, ho, ?_⟩))⟩
    dsimp only
    rw [if_pos (by simpa [listedObj] using hl)]
    rfl
  | unstructured u =>
    rw [listedObj] at hl
    cases hl


/-! ## Claim C3: reconciliation is idempotent -/

/-- C3: with unchanged render results (well formed, with pairwise
distinct resource keys) and no external cluster mutation or API
failure between the calls, a second `ReconcileTopologyWorkloads` call
against the cluster produced by the first reports no created, updated
or deleted resources. -/
theorem claim_C3_reconcile_idempotent (topology : Topology)
    (renderResults : List (String × RenderResult)) (cl : Cluster)
    (hwf : ∀ it ∈ flattenResults renderResults, wfResource it.resource = true)
    (hnd : ((flattenResults renderResults).map
      (fun it => getResourceKey it.resource)).Nodup) :
    (ReconcileTopologyWorkloads [] topology renderResults
        (ReconcileTopologyWorkloads [] topology renderResults cl).cluster).created = [] ∧
    (ReconcileTopologyWorkloads [] topology renderResults
        (ReconcileTopologyWorkloads [] topology renderResults cl).cluster).updated = [] ∧
    (ReconcileTopologyWorkloads [] topology renderResults
        (ReconcileTopologyWorkloads [] topology renderResults cl).cluster).deleted = [] := by
  set items := flattenResults renderResults with hitems
  set desired := items.map (fun it => getResourceKey it.resource) with hdesired
  set existing1 := getExistingResources topology cl with hex1
  set stP := processItems [] { cluster := cl } items with hstP
  have hst1 : ReconcileTopologyWorkloads [] topology renderResults cl =
      deleteUnwanted [] desired stP existing1 := rfl
  set st1 := deleteUnwanted [] desired stP existing1 with hst1d
  rw [hst1]
  have hF1 : ∀ p ∈ existing1, p.1 ∉ ([] : Faults) := fun p _ => List.not_mem_nil _
  -- every work item is a no-op (or the same error) against the pass-1 cluster
  have hEstP : ∀ it ∈ items, noopOrError stP.cluster it :=
    processItems_establishes { cluster := cl } items hwf hnd
  have hEst : ∀ it ∈ items, noopOrError st1.cluster it := by
    intro it hit
    have hkd : getResourceKey it.resource ∈ desired := by
      rw [hdesired]
      exact List.mem_map_of_mem _ hit
    have hobjs : objsAt (getResourceKey it.resource) st1.cluster =
        objsAt (getResourceKey it.resource) stP.cluster :=
      deleteUnwanted_objsAt_desired [] desired existing1 stP _ hkd
    exact noopOrError_transfer stP.cluster st1.cluster it (hwf it hit) hobjs.symm
      (hEstP it hit)
  -- the second pass's mutation loop is silent
  set stP2 := processItems [] { cluster := st1.cluster } items with hstP2
  obtain ⟨hP2cl, hP2cr, hP2up⟩ := processItems_noop { cluster := st1.cluster } items hEst
  -- the second pass's existing snapshot is entirely desired
  have hsnap : ∀ p ∈ getExistingResources topology st1.cluster, p.1 ∈ desired := by
    intro p hp
    by_contra hkd
    obtain ⟨hmem, hkey, hlist, hkind⟩ := getExisting_sound topology st1.cluster p hp
    have hmemP : p.2 ∈ stP.cluster :=
      deleteUnwanted_cluster_subset [] desired existing1 stP p.2 hmem
    have hfr : objsAt p.1 stP.cluster = objsAt p.1 cl := by
      rw [hstP]
      exact processItems_objsAt_frame [] { cluster := cl } items p.1 hwf
        (fun it hit hx => hkd (hx ▸ (hdesired ▸ List.mem_map_of_mem _ hit)))
    have hmemcl : p.2 ∈ cl := by
      have h1 : p.2 ∈ objsAt p.1 stP.cluster := (mem_objsAt _ _ _).mpr ⟨hmemP, hkey⟩
      rw [hfr] at h1
      exact ((mem_objsAt _ _ _).mp h1).1
    obtain ⟨o2, ho2⟩ := getExisting_complete topology cl p.2 hmemcl hlist
    rw [hkey] at ho2
    have hkill : objsAt p.1 st1.cluster = [] :=
      deleteUnwanted_kills [] desired existing1 stP p.1 o2 hkd hkind hF1 ho2
    have : p.2 ∈ objsAt p.1 st1.cluster := (mem_objsAt _ _ _).mpr ⟨hmem, hkey⟩
    rw [hkill] at this
    cases this
  have hst2 : ReconcileTopologyWorkloads [] topology renderResults st1.cluster =
      deleteUnwanted [] desired stP2 (getExistingResources topology st1.cluster) := rfl
  rw [hst2, deleteUnwanted_skip_all [] desired stP2 _ hsnap]
  refine ⟨hP2cr.trans rfl, hP2up.trans rfl, ?_⟩
  rw [hstP2, processItems_deleted]

/-- Witness for C3 on a concrete topology: one container node and one
VM node with a startup config, reconciled twice from an empty
cluster. -/
theorem claim_C3_reconcile_idempotent_witness :
    (ReconcileTopologyWorkloads [] { name := "t1" }
        (RenderTopologyWorkloads NewWorkloadClassifier { name := "t1" }
          [ ("srl1", { image := "ghcr.io/nokia/srlinux", kind := "srl" })
          , ("fw1", { image := "vyos/vyos:1.4", kind := "vyos"
                    , startupConfig := "set system" }) ] "ns1")
        (ReconcileTopologyWorkloads [] { name := "t1" }
          (RenderTopologyWorkloads NewWorkloadClassifier { name := "t1" }
            [ ("srl1", { image := "ghcr.io/nokia/srlinux", kind := "srl" })
            , ("fw1", { image := "vyos/vyos:1.4", kind := "vyos"
                      , startupConfig := "set system" }) ] "ns1")
          []).cluster).created = [] ∧
    (ReconcileTopologyWorkloads [] { name := "t1" }
        (RenderTopologyWorkloads NewWorkloadClassifier { name := "t1" }
          [ ("srl1", { image := "ghcr.io/nokia/srlinux", kind := "srl" })
          , ("fw1", { image := "vyos/vyos:1.4", kind := "vyos"
                    , startupConfig := "set system" }) ] "ns1")
        (ReconcileTopologyWorkloads [] { name := "t1" }
          (RenderTopologyWorkloads NewWorkloadClassifier { name := "t1" }
            [ ("srl1", { image := "ghcr.io/nokia/srlinux", kind := "srl" })
            , ("fw1", { image := "vyos/vyos:1.4", kind := "vyos"
                      , startupConfig := "set system" }) ] "ns1")
          []).cluster).updated = [] ∧
    (ReconcileTopologyWorkloads [] { name := "t1" }
        (RenderTopologyWorkloads NewWorkloadClassifier { name := "t1" }
          [ ("srl1", { image := "ghcr.io/nokia/srlinux", kind := "srl" })
          , ("fw1", { image := "vyos/vyos:1.4", kind := "vyos"
                    , startupConfig := "set system" }) ] "ns1")
        (ReconcileTopologyWorkloads [] { name := "t1" }
          (RenderTopologyWorkloads NewWorkloadClassifier { name := "t1" }
            [ ("srl1", { image := "ghcr.io/nokia/srlinux", kind := "srl" })
            , ("fw1", { image := "vyos/vyos:1.4", kind := "vyos"
                      , startupConfig := "set system" }) ] "ns1")
          []).cluster).deleted = [] :=
  claim_C3_reconcile_idempotent { name := "t1" }
    (RenderTopologyWorkloads NewWorkloadClassifier { name := "t1" }
      [ ("srl1", { image := "ghcr.io/nokia/srlinux", kind := "srl" })
      , ("fw1", { image := "vyos/vyos:1.4", kind := "vyos"
                , startupConfig := "set system" }) ] "ns1")
    [] (by decide) (by decide)


/-! ## Claim C1: partial failure isolation -/

/-- `filterK` distributes over list append. -/
theorem filterK_append (k : RKey) (a b : List ResourceInfo) :
    filterK k (a ++ b) = filterK k a ++ filterK k b := by
  simp [filterK, List.filter_append]

/-- Records all carrying a different key are filtered away. -/
theorem filterK_nil_of_keys (k k₀ : RKey) (hne : k ≠ k₀) (l : List ResourceInfo)
    (h : ∀ i ∈ l, ((i.rtype, i.name) : RKey) = k₀) : filterK k l = [] := by
  induction l with
  | nil => rfl
  | cons i rest ih =>
    have h1 : ((i.rtype, i.name) : RKey) = k₀ := h i (List.mem_cons_self _ _)
    have h2 : ¬ (((i.rtype, i.name) : RKey) == k) = true := fun hx =>
      hne ((eq_of_beq hx).symm.trans h1)
    show List.filter _ (i :: rest) = []
    rw [List.filter_cons, if_neg h2]
    exact ih (fun j hj => h j (List.mem_cons_of_mem _ hj))

/-- Equal projected deltas give equal created and updated records. -/
theorem deltas_congr (r₁ r₂ : Except String ReconOut)
    (h : deltasOf r₁ = deltasOf r₂) :
    createdDelta r₁ = createdDelta r₂ ∧ updatedDelta r₁ = updatedDelta r₂ := by
  cases r₁ with
  | error e₁ =>
    cases r₂ with
    | error e₂ => exact ⟨rfl, rfl⟩
    | ok o₂ => simp [deltasOf, Except.map] at h
  | ok o₁ =>
    cases r₂ with
    | error e₂ => simp [deltasOf, Except.map] at h
    | ok o₂ =>
      obtain ⟨c₁, cs₁, us₁⟩ := o₁
      obtain ⟨c₂, cs₂, us₂⟩ := o₂
      simp [deltasOf, Except.map] at h
      exact ⟨h.1, h.2⟩

/-- Two reconcile loops over the same items, one with faults `F` and
one fault free, agree — record for record and cluster object for
cluster object — at every key outside `F`. -/
theorem processItems_isolate (F : Faults) (items : List WorkItem) (st₁ st₂ : RState)
    (hwf : ∀ it ∈ items, wfResource it.resource = true)
    (hinv : ∀ k, k ∉ F →
      filterK k st₁.created = filterK k st₂.created ∧
      filterK k st₁.updated = filterK k st₂.updated ∧
      objsAt k st₁.cluster = objsAt k st₂.cluster) :
    ∀ k, k ∉ F →
      filterK k (processItems F st₁ items).created =
        filterK k (processItems [] st₂ items).created ∧
      filterK k (processItems F st₁ items).updated =
        filterK k (processItems [] st₂ items).updated ∧
      objsAt k (processItems F st₁ items).cluster =
        objsAt k (processItems [] st₂ items).cluster := by
  induction items generalizing st₁ st₂ with
  | nil => exact hinv
  | cons it rest ih =>
    have hwf_it : wfResource it.resource = true := hwf it (List.mem_cons_self _ _)
    have hwfr : ∀ x ∈ rest, wfResource x.resource = true :=
      fun x hx => hwf x (List.mem_cons_of_mem _ hx)
    refine ih (reconcileStep F st₁ it) (reconcileStep ([] : Faults) st₂ it) hwfr
      (fun k hk => ?_)
    obtain ⟨hc₁, hcr₁, hup₁, hd₁, he₁⟩ := reconcileStep_fields F st₁ it
    obtain ⟨hc₂, hcr₂, hup₂, hd₂, he₂⟩ := reconcileStep_fields ([] : Faults) st₂ it
    obtain ⟨hic, hiu, hio⟩ := hinv k hk
    by_cases hkey : getResourceKey it.resource ∈ F
    · have hne : k ≠ getResourceKey it.resource := fun hx => hk (hx ▸ hkey)
      have hz : ∀ (G : Faults) (st : RState),
          filterK k (createdDelta (reconcileResource G st.cluster it.resource it.wt)) = [] ∧
          filterK k (updatedDelta (reconcileResource G st.cluster it.resource it.wt)) = [] := by
        intro G st
        cases hr : reconcileResource G st.cluster it.resource it.wt with
        | error e => exact ⟨rfl, rfl⟩
        | ok out =>
          obtain ⟨c, cs, us⟩ := out
          have hkeys := reconcileResource_record_keys G st.cluster it.resource it.wt
            c cs us hwf_it hr
          exact ⟨filterK_nil_of_keys k _ hne cs
              (fun i hi => hkeys i (List.mem_append_left _ hi)),
            filterK_nil_of_keys k _ hne us
              (fun i hi => hkeys i (List.mem_append_right _ hi))⟩
      refine ⟨?_, ?_, ?_⟩
      · rw [hcr₁, hcr₂, filterK_append, filterK_append, (hz F st₁).1, (hz [] st₂).1,
          List.append_nil, List.append_nil]
        exact hic
      · rw [hup₁, hup₂, filterK_append, filterK_append, (hz F st₁).2, (hz [] st₂).2,
          List.append_nil, List.append_nil]
        exact hiu
      · rw [hc₁, hc₂,
          reconcileResource_fault_inert F st₁.cluster it.resource it.wt hwf_it hkey,
          reconcileResource_objsAt_other [] st₂.cluster it.resource it.wt k hne hwf_it]
        exact hio
    · have hnf := reconcileResource_nofault F st₁.cluster it.resource it.wt hwf_it hkey
      have hioKey : objsAt (getResourceKey it.resource) st₁.cluster =
          objsAt (getResourceKey it.resource) st₂.cluster := (hinv _ hkey).2.2
      have hdet := reconcileResource_det [] st₁.cluster st₂.cluster it.resource it.wt
        hwf_it hioKey
      obtain ⟨hdc, hdu⟩ := deltas_congr _ _ hdet.1
      refine ⟨?_, ?_, ?_⟩
      · rw [hcr₁, hcr₂, filterK_append, filterK_append, hnf, hdc, hic]
      · rw [hup₁, hup₂, filterK_append, filterK_append, hnf, hdu, hiu]
      · rw [hc₁, hc₂, hnf]
        by_cases hkk : k = getResourceKey it.resource
        · rw [hkk]
          exact hdet.2
        · rw [reconcileResource_objsAt_other [] st₁.cluster it.resource it.wt k hkk hwf_it,
            reconcileResource_objsAt_other [] st₂.cluster it.resource it.wt k hkk hwf_it]
          exact hio

/-- A faulted item that would mutate the cluster contributes its
formatted error to the loop's accumulated errors. -/
theorem processItems_err_mem (F : Faults) (st : RState) (items : List WorkItem)
    (it₀ : WorkItem) (hit : it₀ ∈ items)
    (hwf : ∀ it ∈ items, wfResource it.resource = true)
    (hkF : getResourceKey it₀.resource ∈ F)
    (hmut : mutationNeeded st.cluster it₀ = true) :
    ∃ e, reconcileErrMsg it₀ e ∈ (processItems F st items).errors := by
  induction items generalizing st with
  | nil => cases hit
  | cons it rest ih =>
    have hwf_it : wfResource it.resource = true := hwf it (List.mem_cons_self _ _)
    have hwfr : ∀ x ∈ rest, wfResource x.resource = true :=
      fun x hx => hwf x (List.mem_cons_of_mem _ hx)
    rcases List.mem_cons.mp hit with heq | hmem
    · subst heq
      have hok : ∃ c cs us, reconcileResource [] st.cluster it₀.resource it₀.wt =
          .ok (c, cs, us) ∧ (cs ≠ [] ∨ us ≠ []) := by
        unfold mutationNeeded at hmut
        cases hr : reconcileResource [] st.cluster it₀.resource it₀.wt with
        | error e =>
          rw [hr] at hmut
          cases hmut
        | ok out =>
          obtain ⟨c, cs, us⟩ := out
          rw [hr] at hmut
          refine ⟨c, cs, us, rfl, ?_⟩
          by_contra hcon
          push_neg at hcon
          obtain ⟨h1, h2⟩ := hcon
          subst h1
          subst h2
          simp at hmut
      obtain ⟨c, cs, us, hr, hne⟩ := hok
      obtain ⟨e, herr⟩ := reconcileResource_fault_mut_error F st.cluster it₀.resource
        it₀.wt c cs us hwf_it hr hne hkF
      have hstep := (reconcileStep_fields F st it₀).2.2.2.2
      rw [herr] at hstep
      obtain ⟨tl, htl⟩ := processItems_errors_mono F (reconcileStep F st it₀) rest
      refine ⟨e, ?_⟩
      rw [show processItems F st (it₀ :: rest) =
        processItems F (reconcileStep F st it₀) rest from rfl, htl, hstep]
      simp [errDelta]
    · have hobjs : objsAt (getResourceKey it₀.resource) (reconcileStep F st it).cluster
          = objsAt (getResourceKey it₀.resource) st.cluster := by
        rw [(reconcileStep_fields F st it).1]
        by_cases hkey : getResourceKey it.resource ∈ F
        · rw [reconcileResource_fault_inert F st.cluster it.resource it.wt hwf_it hkey]
        · exact reconcileResource_objsAt_other F st.cluster it.resource it.wt _
            (fun hx => hkey (hx ▸ hkF)) hwf_it
      have hmut2 : mutationNeeded (reconcileStep F st it).cluster it₀ = true := by
        rw [mutationNeeded_transfer _ _ it₀ (hwf it₀ hit) hobjs]
        exact hmut
      exact ih (reconcileStep F st it) hmem hwfr hmut2


/-- C1: a failure while reconciling one rendered resource does not
abort the pass.  Injecting a fault at one work item's key (an item
that would otherwise mutate the cluster, with no pre-existing listed
resource under that key): the item's formatted error is reported in
`errors`, every other key's created and updated records match the
fault-free run record for record, and the unwanted-resource deletion
still happens exactly as in the fault-free run. -/
theorem claim_C1_partial_failure_isolation (topology : Topology)
    (renderResults : List (String × RenderResult)) (cl : Cluster) (it₀ : WorkItem)
    (hit : it₀ ∈ flattenResults renderResults)
    (hwf : ∀ it ∈ flattenResults renderResults, wfResource it.resource = true)
    (hmut : mutationNeeded cl it₀ = true)
    (hex : ∀ p ∈ getExistingResources topology cl, p.1 ≠ getResourceKey it₀.resource) :
    (∃ e, reconcileErrMsg it₀ e ∈
      (ReconcileTopologyWorkloads [getResourceKey it₀.resource] topology
        renderResults cl).errors) ∧
    (∀ k, k ≠ getResourceKey it₀.resource →
      filterK k (ReconcileTopologyWorkloads [getResourceKey it₀.resource] topology
          renderResults cl).created =
        filterK k (ReconcileTopologyWorkloads [] topology renderResults cl).created ∧
      filterK k (ReconcileTopologyWorkloads [getResourceKey it₀.resource] topology
          renderResults cl).updated =
        filterK k (ReconcileTopologyWorkloads [] topology renderResults cl).updated) ∧
    (ReconcileTopologyWorkloads [getResourceKey it₀.resource] topology
        renderResults cl).deleted =
      (ReconcileTopologyWorkloads [] topology renderResults cl).deleted := by
  set k₀ := getResourceKey it₀.resource with hk₀
  set items := flattenResults renderResults with hitems
  set desired := items.map (fun it => getResourceKey it.resource) with hdesired
  set existing := getExistingResources topology cl with hexist
  have hF : ∀ p ∈ existing, p.1 ∉ [k₀] :=
    fun p hp hx => hex p hp (List.mem_singleton.mp hx)
  have hFnil : ∀ p ∈ existing, p.1 ∉ ([] : Faults) := fun p _ => List.not_mem_nil _
  have hrwF : ReconcileTopologyWorkloads [k₀] topology renderResults cl =
      deleteUnwanted [k₀] desired (processItems [k₀] { cluster := cl } items)
        existing := rfl
  have hrw0 : ReconcileTopologyWorkloads [] topology renderResults cl =
      deleteUnwanted [] desired (processItems [] { cluster := cl } items)
        existing := rfl
  obtain ⟨hdF, heF, hcF, huF⟩ := deleteUnwanted_fields [k₀] desired
    (processItems [k₀] { cluster := cl } items) existing hF
  obtain ⟨hd0, he0, hc0, hu0⟩ := deleteUnwanted_fields [] desired
    (processItems [] { cluster := cl } items) existing hFnil
  refine ⟨?_, ?_, ?_⟩
  · obtain ⟨e, he⟩ := processItems_err_mem [k₀] { cluster := cl } items it₀ hit hwf
      (List.mem_singleton.mpr rfl) hmut
    refine ⟨e, ?_⟩
    rw [hrwF, heF]
    exact he
  · intro k hk
    have hiso := processItems_isolate [k₀] items { cluster := cl } { cluster := cl }
      hwf (fun k hk => ⟨rfl, rfl, rfl⟩) k
      (fun hx => hk (List.mem_singleton.mp hx))
    constructor
    · rw [hrwF, hcF, hrw0, hc0]
      exact hiso.1
    · rw [hrwF, huF, hrw0, hu0]
      exact hiso.2.1
  · rw [hrwF, hdF, hrw0, hd0, processItems_deleted, processItems_deleted]

/-- Witness for C1 on the concrete two-node rendering: the fault at
node `srl1`'s Deployment is reported as an error, node `srl2`'s
Deployment records match the fault-free run, and the deletion phase
matches too. -/
theorem claim_C1_partial_failure_isolation_witness :
    (∃ e, reconcileErrMsg demoItem e ∈
      (ReconcileTopologyWorkloads [getResourceKey demoItem.resource] { name := "t1" }
        demoRender []).errors) ∧
    (filterK ("Deployment", "srl2")
        (ReconcileTopologyWorkloads [getResourceKey demoItem.resource] { name := "t1" }
          demoRender []).created =
      filterK ("Deployment", "srl2")
        (ReconcileTopologyWorkloads [] { name := "t1" } demoRender []).created) ∧
    (ReconcileTopologyWorkloads [getResourceKey demoItem.resource] { name := "t1" }
        demoRender []).deleted =
      (ReconcileTopologyWorkloads [] { name := "t1" } demoRender []).deleted :=
  have h := claim_C1_partial_failure_isolation { name := "t1" } demoRender [] demoItem
    (List.get_mem _ _ _) (by decide) (by decide) (by decide)
  ⟨h.1, (h.2.1 ("Deployment", "srl2") (by decide)).1, h.2.2⟩

end NativeClab